import Mathlib

/-!
# Verification of the osuwebengine per-mode gameplay core

Shallow embedding of the judgement engine of the osuwebengine repository
(`GameCanvas` component, latest revision with Standard/Taiko/Mania modes, plus
the shared timing constants).  Numbers that the source holds in JS doubles are
modelled as exact rationals; `Math.sqrt`-based distance tests are embedded by
the equivalent square comparison, and the transcendental pointer angle
(`Math.atan2`) enters the frame model as an input parameter.
-/

namespace OsuWeb

/-- `HitObjectType` from types.ts (`CIRCLE = 1, SLIDER = 2, SPINNER = 8`). -/
inductive HitType where
  | circle
  | slider
  | spinner
deriving DecidableEq, Repr

/-- A point of a slider path (`sliderPoints` entries). -/
structure SPoint where
  x : ℚ
  y : ℚ
deriving DecidableEq, Repr

/-- `HitObject` from types.ts, restricted to the fields the judgement engine
reads or writes.  `sliderPoints`/`slides` are optional in the source; the
Catch-only fields are not touched by the code under verification. -/
structure HitObject where
  id : ℕ
  x : ℚ
  y : ℚ
  time : ℚ
  type : HitType
  hit : Bool
  missed : Bool
  endTime : ℚ
  hitSound : ℕ
  sliderPoints : Option (List SPoint)
  slides : Option ℕ
  wasSpun : Bool
deriving DecidableEq, Repr

/-- `ScoreData` from types.ts. -/
structure ScoreData where
  totalScore : ℕ
  combo : ℕ
  maxCombo : ℕ
  accuracy : ℚ
  count300 : ℕ
  count100 : ℕ
  count50 : ℕ
  countMiss : ℕ
deriving DecidableEq, Repr

/-- The initial score state of a session (`scoreRef` initialiser). -/
def initialScore : ScoreData :=
  { totalScore := 0, combo := 0, maxCombo := 0, accuracy := 100,
    count300 := 0, count100 := 0, count50 := 0, countMiss := 0 }

/-- The `hitType` argument of `updateScore`: `'300' | '100' | '50' | 'miss'`. -/
inductive HitKind where
  | h300
  | h100
  | h50
  | miss
deriving DecidableEq, Repr

/-- A judgement event: the `(points, hitType)` pair of one `updateScore` call.
The handlers below additionally log these events so that theorems can speak
about the emitted judgement stream. -/
abbrev Judgement := ℕ × HitKind

-- Timing window constants from constants.ts.
def HIT_WINDOW_300 : ℚ := 50
def HIT_WINDOW_100 : ℚ := 100
def HIT_WINDOW_50 : ℚ := 150

/-- `updateScore` from GameCanvas: the score-aggregator transition.
`(newCombo || 1)` is JS for `max newCombo 1` on naturals. -/
def updateScore (s : ScoreData) (points : ℕ) (hitType : HitKind) : ScoreData :=
  let newCombo : ℕ := if hitType = HitKind.miss then 0 else s.combo + 1
  let count300 := s.count300 + (if hitType = HitKind.h300 then 1 else 0)
  let count100 := s.count100 + (if hitType = HitKind.h100 then 1 else 0)
  let count50 := s.count50 + (if hitType = HitKind.h50 then 1 else 0)
  let countMiss := s.countMiss + (if hitType = HitKind.miss then 1 else 0)
  let totalHits := count300 + count100 + count50 + countMiss
  { totalScore := s.totalScore + points * (if newCombo = 0 then 1 else newCombo)
    combo := newCombo
    maxCombo := max s.maxCombo newCombo
    accuracy :=
      if totalHits > 0 then
        (((count300 : ℚ) * 300 + (count100 : ℚ) * 100 + (count50 : ℚ) * 50)
          / ((totalHits : ℚ) * 300)) * 100
      else 100
    count300 := count300
    count100 := count100
    count50 := count50
    countMiss := countMiss }

/-- `sqrt(dx² + dy²) ≤ r` of the source, expressed without the square root:
over the reals `√s ≤ r ↔ 0 ≤ r ∧ s ≤ r²` for `s ≥ 0`, and all quantities
here are rationals. -/
def distWithin (dx dy r : ℚ) : Prop :=
  0 ≤ r ∧ dx ^ 2 + dy ^ 2 ≤ r ^ 2

instance (dx dy r : ℚ) : Decidable (distWithin dx dy r) := by
  unfold distWithin; infer_instance

/-- Mutable per-press scan state shared by the three discrete-input handlers:
the chart copy, the advance cursor (`nextHittableIndex`) and the score. -/
structure InputState where
  objs : List HitObject
  cursor : ℕ
  score : ScoreData
deriving DecidableEq, Repr

/-- Result of one discrete-input handler call: the updated chart, the updated
score, and the judgement events emitted (in call order). -/
structure ScanOut where
  objs : List HitObject
  score : ScoreData
  events : List Judgement
deriving DecidableEq, Repr

/-- Environment of `handleStandardInput`: the audio-clock time and the fixed
per-session rendering parameters it reads. -/
structure StdEnv where
  now : ℚ
  scale : ℚ
  offsetX : ℚ
  offsetY : ℚ
  approachTime : ℚ
  circleRadius : ℚ
deriving DecidableEq, Repr

/-- `getApproachTime` from GameCanvas (official osu! AR formula). -/
def getApproachTime (ar : ℚ) : ℚ :=
  if ar < 5 then 1200 + 600 * (5 - ar) / 5
  else if ar = 5 then 1200
  else 1200 - 750 * (ar - 5) / 5

/-- Loop body of `handleStandardInput`
(`for i = nextHittableIndex; i < searchLimit; i++` with
`searchLimit = min(nextHittableIndex + 10, list.length)`): `fuel` counts the
remaining loop iterations of the 10-object window.  `continue` recurses with
the head kept, `break`/`return` and loop exit leave the rest unchanged. -/
def stdInputAux (env : StdEnv) (clientX clientY : ℚ) (score : ScoreData) :
    ℕ → List HitObject → ScanOut
  | 0, l => ⟨l, score, []⟩
  | _ + 1, [] => ⟨[], score, []⟩
  | fuel + 1, obj :: rest =>
    if obj.hit || obj.missed then
      let r := stdInputAux env clientX clientY score fuel rest
      ⟨obj :: r.objs, r.score, r.events⟩
    else if env.now < obj.time - env.approachTime then
      ⟨obj :: rest, score, []⟩
    else
      let sx := obj.x * env.scale + env.offsetX
      let sy := obj.y * env.scale + env.offsetY
      let scaledRadius := env.circleRadius * env.scale * (3 / 2)
      if (obj.type = HitType.circle ∨ obj.type = HitType.slider)
          ∧ distWithin (clientX - sx) (clientY - sy) scaledRadius then
        let timeDiff := |env.now - obj.time|
        if timeDiff ≤ HIT_WINDOW_50 then
          let obj' := { obj with hit := true }
          if timeDiff ≤ HIT_WINDOW_300 then
            ⟨obj' :: rest, updateScore score 300 HitKind.h300, [(300, HitKind.h300)]⟩
          else if timeDiff ≤ HIT_WINDOW_100 then
            ⟨obj' :: rest, updateScore score 100 HitKind.h100, [(100, HitKind.h100)]⟩
          else
            ⟨obj' :: rest, updateScore score 50 HitKind.h50, [(50, HitKind.h50)]⟩
        else
          let r := stdInputAux env clientX clientY score fuel rest
          ⟨obj :: r.objs, r.score, r.events⟩
      else
        let r := stdInputAux env clientX clientY score fuel rest
        ⟨obj :: r.objs, r.score, r.events⟩

/-- `handleStandardInput`: scans at most 10 objects from the cursor. -/
def handleStandardInput (env : StdEnv) (st : InputState) (clientX clientY : ℚ) :
    ScanOut :=
  let r := stdInputAux env clientX clientY st.score 10 (st.objs.drop st.cursor)
  ⟨st.objs.take st.cursor ++ r.objs, r.score, r.events⟩

/-- The two Taiko press classes (`'inner' | 'outer'`). -/
inductive TaikoKey where
  | inner
  | outer
deriving DecidableEq, Repr

/-- Loop body of `handleTaikoInput` (scans from the cursor to the end of the
list; the `lastHitTime` visual-flash timestamp write is omitted as pure
rendering state). -/
def taikoInputAux (now : ℚ) (keyType : TaikoKey) (score : ScoreData)
    (events : List Judgement) : List HitObject → ScanOut
  | [] => ⟨[], score, events⟩
  | obj :: rest =>
    if obj.hit || obj.missed then
      let r := taikoInputAux now keyType score events rest
      ⟨obj :: r.objs, r.score, r.events⟩
    else if obj.time - now > HIT_WINDOW_50 then
      ⟨obj :: rest, score, events⟩
    else if obj.type = HitType.circle ∨ obj.type = HitType.slider then
      let timeDiff := |now - obj.time|
      if timeDiff ≤ HIT_WINDOW_50 then
        let isBlue := obj.hitSound &&& 2 ≠ 0 ∨ obj.hitSound &&& 8 ≠ 0
        let isRed := ¬isBlue
        if (keyType = TaikoKey.inner ∧ isRed) ∨ (keyType = TaikoKey.outer ∧ isBlue) then
          let obj' := { obj with hit := true }
          if timeDiff ≤ HIT_WINDOW_300 then
            ⟨obj' :: rest, updateScore score 300 HitKind.h300,
             events ++ [(300, HitKind.h300)]⟩
          else if timeDiff ≤ HIT_WINDOW_100 then
            ⟨obj' :: rest, updateScore score 100 HitKind.h100,
             events ++ [(100, HitKind.h100)]⟩
          else
            ⟨obj' :: rest, updateScore score 300 HitKind.h300,
             events ++ [(300, HitKind.h300)]⟩
        else
          let r := taikoInputAux now keyType score events rest
          ⟨obj :: r.objs, r.score, r.events⟩
      else if now > obj.time + HIT_WINDOW_50 then
        let obj' := { obj with missed := true }
        let r := taikoInputAux now keyType (updateScore score 0 HitKind.miss)
          (events ++ [(0, HitKind.miss)]) rest
        ⟨obj' :: r.objs, r.score, r.events⟩
      else
        let r := taikoInputAux now keyType score events rest
        ⟨obj :: r.objs, r.score, r.events⟩
    else if obj.type = HitType.spinner then
      if now ≥ obj.time ∧ now ≤ obj.endTime then
        ⟨obj :: rest, updateScore score 100 HitKind.h100,
         events ++ [(100, HitKind.h100)]⟩
      else
        let r := taikoInputAux now keyType score events rest
        ⟨obj :: r.objs, r.score, r.events⟩
    else
      let r := taikoInputAux now keyType score events rest
      ⟨obj :: r.objs, r.score, r.events⟩

/-- `handleTaikoInput`: unbounded forward scan from the cursor. -/
def handleTaikoInput (now : ℚ) (st : InputState) (keyType : TaikoKey) : ScanOut :=
  let r := taikoInputAux now keyType st.score [] (st.objs.drop st.cursor)
  ⟨st.objs.take st.cursor ++ r.objs, r.score, r.events⟩

/-- Column derivation of Mania mode: `Math.floor(obj.x * 4 / 512)`. -/
def maniaColumn (x : ℚ) : ℤ := ⌊x * 4 / 512⌋

/-- Loop body of `handleManiaInput` (scans from the cursor to the end). -/
def maniaInputAux (now : ℚ) (columnIndex : ℤ) (score : ScoreData) :
    List HitObject → ScanOut
  | [] => ⟨[], score, []⟩
  | obj :: rest =>
    if obj.hit || obj.missed then
      let r := maniaInputAux now columnIndex score rest
      ⟨obj :: r.objs, r.score, r.events⟩
    else if maniaColumn obj.x ≠ columnIndex then
      let r := maniaInputAux now columnIndex score rest
      ⟨obj :: r.objs, r.score, r.events⟩
    else if obj.time - now > HIT_WINDOW_50 then
      ⟨obj :: rest, score, []⟩
    else
      let timeDiff := |now - obj.time|
      if timeDiff ≤ HIT_WINDOW_50 then
        let obj' := { obj with hit := true }
        if timeDiff ≤ HIT_WINDOW_300 then
          ⟨obj' :: rest, updateScore score 300 HitKind.h300, [(300, HitKind.h300)]⟩
        else if timeDiff ≤ HIT_WINDOW_100 then
          ⟨obj' :: rest, updateScore score 100 HitKind.h100, [(100, HitKind.h100)]⟩
        else
          ⟨obj' :: rest, updateScore score 50 HitKind.h50, [(50, HitKind.h50)]⟩
      else
        let r := maniaInputAux now columnIndex score rest
        ⟨obj :: r.objs, r.score, r.events⟩

/-- `handleManiaInput`; `isDown = false` returns immediately
(`if (!isDown) return`). -/
def handleManiaInput (now : ℚ) (st : InputState) (columnIndex : ℤ)
    (isDown : Bool) : ScanOut :=
  if isDown then
    let r := maniaInputAux now columnIndex st.score (st.objs.drop st.cursor)
    ⟨st.objs.take st.cursor ++ r.objs, r.score, r.events⟩
  else
    ⟨st.objs, st.score, []⟩

/-! ## Per-frame draw-loop models

The per-frame judgement work of the `draw` loop of each mode: cursor advance,
miss detection, slider-ball tracking and spinner accumulation.  Canvas drawing
calls carry no judgement state and are omitted. -/

/-- Exact rational value of the IEEE-754 double `Math.PI`
(3.14159265358979311599…). -/
def PI : ℚ := 884279719003555 / 281474976710656

/-- Embeds `Math.atan2(Math.sin θ, Math.cos θ)`: θ reduced by the multiple of
2π that brings it into the principal range (round-to-nearest reduction). -/
def wrapAngle (θ : ℚ) : ℚ := θ - 2 * PI * ⌊θ / (2 * PI) + 1 / 2⌋

/-- JS `a % b` for the non-negative operands used by the slider interpolation
(`b = 0` yields NaN in JS; the degenerate `endTime = time` chart is outside
the parser's output and keeps the Lean convention `a - 0 = a`). -/
def jsMod (a b : ℚ) : ℚ := a - b * ⌊a / b⌋

/-- JS `(obj.slides || 1)`: `undefined` and `0` both fall back to 1. -/
def slidesOr1 : Option ℕ → ℕ
  | none => 1
  | some 0 => 1
  | some (n + 1) => n + 1

/-- JS array access `p[i]` in the ball interpolation; indices are in range for
any non-degenerate slider path. -/
def pointAt (p : List SPoint) (i : ℤ) : SPoint := p.getD i.toNat ⟨0, 0⟩

/-- `spinnerState` (Standard-mode spin accumulator). -/
structure SpinnerState where
  currentAngle : ℚ
  lastAngle : ℚ
  totalRotation : ℚ
  rpm : ℚ
  lastTime : ℚ
deriving DecidableEq, Repr

/-- Per-frame inputs of the Standard draw loop: the two clocks, the smoothed
pointer, the press flag, the pointer angle from screen centre
(`Math.atan2(m.y - cy, m.x - cx)`, supplied as an input because `atan2` is
transcendental; it is constant during one frame's scan), and the fixed
per-session parameters. -/
structure StdFrameEnv where
  now : ℚ
  wallNow : ℚ
  m : SPoint
  isDown : Bool
  pointerAngle : ℚ
  scale : ℚ
  offsetX : ℚ
  offsetY : ℚ
  approachTime : ℚ
  circleRadius : ℚ
deriving DecidableEq, Repr

/-- State threaded through one Standard frame. -/
structure StdFrameState where
  objs : List HitObject
  cursor : ℕ
  spinner : SpinnerState
  score : ScoreData
deriving DecidableEq, Repr

/-- Result of one Standard frame, with the frame's judgement events and the
`allDone` flag the loop computes. -/
structure StdFrameOut where
  objs : List HitObject
  cursor : ℕ
  spinner : SpinnerState
  score : ScoreData
  allDone : Bool
  events : List Judgement
deriving DecidableEq, Repr

/-- The cursor-advance condition of the Standard draw loop (line
`(obj.type === CIRCLE && (obj.hit || obj.missed)) || (obj.type !== CIRCLE &&
currentTime > obj.endTime + 200)`): the object is resolved (Tap) or expired
(Hold/Spin past its lingering window). -/
def stdAdvanceCond (now : ℚ) (obj : HitObject) : Prop :=
  (obj.type = HitType.circle ∧ (obj.hit = true ∨ obj.missed = true))
    ∨ (obj.type ≠ HitType.circle ∧ now > obj.endTime + 200)

instance (now : ℚ) (obj : HitObject) : Decidable (stdAdvanceCond now obj) := by
  unfold stdAdvanceCond; infer_instance

/-- Result of processing one in-approach-window object of the Standard frame. -/
structure ProcOut where
  obj : HitObject
  spinner : SpinnerState
  score : ScoreData
  events : List Judgement
deriving DecidableEq, Repr

/-- Judgement-relevant processing of one in-approach-window object of the
Standard frame: slider-ball tracking and spinner accumulation/resolution
(drawing statements dropped). Returns the updated object, spinner state,
score, and emitted events. -/
def stdProcessObj (env : StdFrameEnv) (sp : SpinnerState) (score : ScoreData)
    (obj : HitObject) : ProcOut :=
  if obj.type = HitType.circle ∨ obj.type = HitType.slider then
    if obj.type = HitType.slider ∧ obj.sliderPoints.isSome then
      let p := obj.sliderPoints.getD []
      let pLen : ℤ := (p.length : ℤ) - 1
      if env.now ≥ obj.time ∧ env.now ≤ obj.endTime then
        let oneSlideDuration := (obj.endTime - obj.time) / (slidesOr1 obj.slides : ℚ)
        let slideProg := jsMod (env.now - obj.time) oneSlideDuration / oneSlideDuration
        let visualProg :=
          if ⌊(env.now - obj.time) / oneSlideDuration⌋ % 2 = 1 then 1 - slideProg
          else slideProg
        let pos := visualProg * (pLen : ℚ)
        let idx : ℤ := ⌊pos⌋
        let nextIdx : ℤ := min (idx + 1) pLen
        let sub := jsMod pos 1
        let pi0 := pointAt p idx
        let pi1 := pointAt p nextIdx
        let bx := (pi0.x + (pi1.x - pi0.x) * sub) * env.scale + env.offsetX
        let byv := (pi0.y + (pi1.y - pi0.y) * sub) * env.scale + env.offsetY
        if env.isDown
            ∧ distWithin (env.m.x - bx) (env.m.y - byv)
                (env.circleRadius * (5 / 2) * env.scale) then
          if obj.hit = false then
            ⟨{ obj with hit := true }, sp, updateScore score 300 HitKind.h300,
             [(300, HitKind.h300)]⟩
          else ⟨obj, sp, score, []⟩
        else ⟨obj, sp, score, []⟩
      else ⟨obj, sp, score, []⟩
    else ⟨obj, sp, score, []⟩
  else if obj.type = HitType.spinner then
    if env.now ≥ obj.time ∧ env.now ≤ obj.endTime then
      let angle := env.pointerAngle
      let deltaT := env.wallNow - sp.lastTime
      if env.isDown then
        let deltaAngle := wrapAngle (angle - sp.lastAngle)
        let sp1 := { sp with totalRotation := sp.totalRotation + |deltaAngle|,
                             currentAngle := sp.currentAngle + deltaAngle }
        let sp2 :=
          if deltaT > 0 then
            { sp1 with rpm := sp1.rpm * (9 / 10)
                + ((|deltaAngle| / (2 * PI)) / (deltaT / 60000)) * (1 / 10) }
          else sp1
        let sp3 := { sp2 with lastAngle := angle, lastTime := env.wallNow }
        if sp2.totalRotation > PI * 8 ∧ obj.wasSpun = false then
          ⟨{ obj with wasSpun := true, hit := true }, sp3,
           updateScore score 300 HitKind.h300, [(300, HitKind.h300)]⟩
        else ⟨obj, sp3, score, []⟩
      else
        let sp' := { sp with rpm := sp.rpm * (95 / 100),
                             lastAngle := angle, lastTime := env.wallNow }
        ⟨obj, sp', score, []⟩
    else ⟨obj, sp, score, []⟩
  else ⟨obj, sp, score, []⟩

/-- Loop body of the Standard draw pass over the tail of the chart from the
cursor. `i` is the current index, `cursor` the live `nextHittableIndex`. -/
def stdFrameAux (env : StdFrameEnv) (i cursor : ℕ) (sp : SpinnerState)
    (score : ScoreData) (allDone : Bool) : List HitObject → StdFrameOut
  | [] => ⟨[], cursor, sp, score, allDone, []⟩
  | obj :: rest =>
    if stdAdvanceCond env.now obj then
      let cursor' := if i = cursor then cursor + 1 else cursor
      let r := stdFrameAux env (i + 1) cursor' sp score allDone rest
      ⟨obj :: r.objs, r.cursor, r.spinner, r.score, r.allDone, r.events⟩
    else
      let timeUntilHit := obj.time - env.now
      if timeUntilHit < -HIT_WINDOW_50 ∧ obj.hit = false ∧ obj.type = HitType.circle then
        let obj' := { obj with missed := true }
        let r := stdFrameAux env (i + 1) cursor sp
          (updateScore score 0 HitKind.miss) false rest
        ⟨obj' :: r.objs, r.cursor, r.spinner, r.score, r.allDone,
         (0, HitKind.miss) :: r.events⟩
      else if timeUntilHit ≤ env.approachTime then
        let p := stdProcessObj env sp score obj
        let r := stdFrameAux env (i + 1) cursor p.spinner p.score false rest
        ⟨p.obj :: r.objs, r.cursor, r.spinner, r.score, r.allDone,
         p.events ++ r.events⟩
      else
        ⟨obj :: rest, cursor, sp, score, false, []⟩

/-- One judgement-relevant Standard frame (`draw`, STANDARD branch). -/
def stdFrame (env : StdFrameEnv) (st : StdFrameState) : StdFrameOut :=
  let r := stdFrameAux env st.cursor st.cursor st.spinner st.score true
    (st.objs.drop st.cursor)
  ⟨st.objs.take st.cursor ++ r.objs, r.cursor, r.spinner, r.score, r.allDone,
   r.events⟩

-- Taiko rendering constant from GameCanvas.
def TAIKO_HIT_X : ℚ := 260

/-- Per-frame inputs of the Taiko draw loop. -/
structure TaikoFrameEnv where
  now : ℚ
  speed : ℚ
  width : ℚ
deriving DecidableEq, Repr

/-- Result of one Taiko frame's object pass. -/
structure TaikoFrameOut where
  objs : List HitObject
  cursor : ℕ
  score : ScoreData
  events : List Judgement
deriving DecidableEq, Repr

/-- Loop body of the Taiko draw pass: cursor advance on resolved objects,
scroll-position based miss detection for Taps. -/
def taikoFrameAux (env : TaikoFrameEnv) (i cursor : ℕ) (score : ScoreData) :
    List HitObject → TaikoFrameOut
  | [] => ⟨[], cursor, score, []⟩
  | obj :: rest =>
    if obj.hit || obj.missed then
      let cursor' := if i = cursor then cursor + 1 else cursor
      let r := taikoFrameAux env (i + 1) cursor' score rest
      ⟨obj :: r.objs, r.cursor, r.score, r.events⟩
    else
      let x := TAIKO_HIT_X + (obj.time - env.now) * env.speed
      if x > env.width + 100 then
        ⟨obj :: rest, cursor, score, []⟩
      else if x < TAIKO_HIT_X - 100 ∧ obj.hit = false ∧ obj.missed = false
          ∧ obj.type = HitType.circle then
        let obj' := { obj with missed := true }
        let r := taikoFrameAux env (i + 1) cursor
          (updateScore score 0 HitKind.miss) rest
        ⟨obj' :: r.objs, r.cursor, r.score, (0, HitKind.miss) :: r.events⟩
      else
        let r := taikoFrameAux env (i + 1) cursor score rest
        ⟨obj :: r.objs, r.cursor, r.score, r.events⟩

/-- One judgement-relevant Taiko frame (`draw`, TAIKO branch, object pass). -/
def taikoFrame (env : TaikoFrameEnv) (st : InputState) : TaikoFrameOut :=
  let r := taikoFrameAux env st.cursor st.cursor st.score (st.objs.drop st.cursor)
  ⟨st.objs.take st.cursor ++ r.objs, r.cursor, r.score, r.events⟩

/-- Per-frame inputs of the Mania draw loop. -/
structure ManiaFrameEnv where
  now : ℚ
  speed : ℚ
  height : ℚ
deriving DecidableEq, Repr

/-- Loop body of the Mania draw pass: cursor advance on resolved objects,
bottom-of-screen miss detection (`hitY = height - 100`). -/
def maniaFrameAux (env : ManiaFrameEnv) (i cursor : ℕ) (score : ScoreData) :
    List HitObject → TaikoFrameOut
  | [] => ⟨[], cursor, score, []⟩
  | obj :: rest =>
    if obj.hit || obj.missed then
      let cursor' := if i = cursor then cursor + 1 else cursor
      let r := maniaFrameAux env (i + 1) cursor' score rest
      ⟨obj :: r.objs, r.cursor, r.score, r.events⟩
    else if maniaColumn obj.x < 0 ∨ maniaColumn obj.x > 3 then
      let r := maniaFrameAux env (i + 1) cursor score rest
      ⟨obj :: r.objs, r.cursor, r.score, r.events⟩
    else
      let timeDiff := obj.time - env.now
      let noteY := (env.height - 100) - timeDiff * env.speed
      if noteY < -200 then
        ⟨obj :: rest, cursor, score, []⟩
      else if noteY > env.height + 50 ∧ obj.hit = false then
        let obj' := { obj with missed := true }
        let r := maniaFrameAux env (i + 1) cursor
          (updateScore score 0 HitKind.miss) rest
        ⟨obj' :: r.objs, r.cursor, r.score, (0, HitKind.miss) :: r.events⟩
      else
        let r := maniaFrameAux env (i + 1) cursor score rest
        ⟨obj :: r.objs, r.cursor, r.score, r.events⟩

/-- One judgement-relevant Mania frame (`draw`, MANIA branch, note pass). -/
def maniaFrame (env : ManiaFrameEnv) (st : InputState) : TaikoFrameOut :=
  let r := maniaFrameAux env st.cursor st.cursor st.score (st.objs.drop st.cursor)
  ⟨st.objs.take st.cursor ++ r.objs, r.cursor, r.score, r.events⟩

/-! ## Catch-mode hold droplets (modelled from the spec) -/

/-- Modelled from the spec: the Catch-mode judgement engine is absent from the
source tree — only the `caughtDroplets`/`tailCaught` fields of `HitObject`
(types.ts) declare its per-object state.  Following §4.2/§8 of the
specification, a Hold object of length `duration` with droplet interval
`interval` spawns `floor(duration / interval)` sub-droplets. -/
def catchDropletCount (duration interval : ℚ) : ℕ := (⌊duration / interval⌋).toNat

/-- Modelled from the spec: the sub-droplets are evenly time-spaced along the
hold, one every `interval` milliseconds after the head time. -/
def catchDropletTime (headTime interval : ℚ) (i : ℕ) : ℚ :=
  headTime + (i + 1 : ℚ) * interval

/-- Modelled from the spec: catching droplet `i` of a hold scores it only if
its index is not yet in the per-object set of already-caught droplet indices
(`caughtDroplets`), so each droplet scores at most once. -/
def catchDroplet (caught : Finset ℕ) (score : ScoreData) (i : ℕ) (points : ℕ)
    (k : HitKind) : Finset ℕ × ScoreData :=
  if i ∈ caught then (caught, score) else (insert i caught, updateScore score points k)

/-! ## Spec-side judgement selection (for refinement comparison) -/

/-- The spec's tier-point table: `300→300, 100→100, 50→50, miss→0`. -/
def tierPoints : HitKind → ℕ
  | HitKind.h300 => 300
  | HitKind.h100 => 100
  | HitKind.h50 => 50
  | HitKind.miss => 0

/-- The spec's shared judgement-tier selection, written from the spec's words:
`|now − object.time| ≤ tier300 → 300; ≤ tier100 → 100; else ≤ tier50 → 50`. -/
def specTierSelect (d : ℚ) : Judgement :=
  if d ≤ HIT_WINDOW_300 then (300, HitKind.h300)
  else if d ≤ HIT_WINDOW_100 then (100, HitKind.h100)
  else (50, HitKind.h50)

/-- The tier selection the Drum (Taiko) handler actually implements: the
`100 < d ≤ 150` band falls through to a full-value 300 judgement. -/
def drumTierSelect (d : ℚ) : Judgement :=
  if d ≤ HIT_WINDOW_300 then (300, HitKind.h300)
  else if d ≤ HIT_WINDOW_100 then (100, HitKind.h100)
  else (300, HitKind.h300)

/-! ## Concrete sample data used by counterexamples and witnesses -/

/-- A plain red Tap (circle) object at the given time. -/
def sampleTap (t : ℚ) : HitObject :=
  { id := 0, x := 100, y := 100, time := t, type := HitType.circle,
    hit := false, missed := false, endTime := t, hitSound := 0,
    sliderPoints := none, slides := none, wasSpun := false }

/-- A degenerate Hold (slider) object without path data. -/
def sampleSlider (t te : ℚ) : HitObject :=
  { id := 0, x := 100, y := 100, time := t, type := HitType.slider,
    hit := false, missed := false, endTime := te, hitSound := 0,
    sliderPoints := none, slides := none, wasSpun := false }

/-- A Spin object spanning `[t, te]`. -/
def sampleSpinner (t te : ℚ) : HitObject :=
  { id := 0, x := 256, y := 192, time := t, type := HitType.spinner,
    hit := false, missed := false, endTime := te, hitSound := 0,
    sliderPoints := none, slides := none, wasSpun := false }

/-- A Tap in Mania column 3 (`x = 400`). -/
def sampleManiaTap (t : ℚ) : HitObject :=
  { sampleTap t with x := 400 }

/-- A Standard-mode environment with identity transform, the pointer parked on
the sample objects' position, AR5 approach time and CS5 radius. -/
def sampleStdEnv (now : ℚ) : StdEnv :=
  { now := now, scale := 1, offsetX := 0, offsetY := 0,
    approachTime := 1200, circleRadius := 32 }

/-- A Tap already resolved as hit, used to pad scan windows. -/
def resolvedTap (t : ℚ) : HitObject := { sampleTap t with hit := true }

/-- A Standard-frame environment with the pointer parked at the origin. -/
def sampleStdFrameEnv (now : ℚ) : StdFrameEnv :=
  { now := now, wallNow := 0, m := ⟨0, 0⟩, isDown := false, pointerAngle := 0,
    scale := 1, offsetX := 0, offsetY := 0, approachTime := 1200,
    circleRadius := 32 }

/-- The session-start spinner state (`spinnerState` initialiser). -/
def initialSpinnerState : SpinnerState :=
  { currentAngle := 0, lastAngle := 0, totalRotation := 0, rpm := 0, lastTime := 0 }

/-! ## Helper lemmas -/

lemma stdInputAux_events_tier (env : StdEnv) (cx cy : ℚ) (s : ScoreData) :
    ∀ (fuel : ℕ) (l : List HitObject) (e : Judgement),
      e ∈ (stdInputAux env cx cy s fuel l).events → e.1 = tierPoints e.2 := by
  intro fuel
  induction fuel with
  | zero => intro l e h; simp [stdInputAux] at h
  | succ n ih =>
    intro l e h
    match l with
    | [] => simp [stdInputAux] at h
    | obj :: rest =>
      simp only [stdInputAux] at h
      split at h
      · exact ih rest e h
      · split at h
        · simp at h
        · split at h
          · split at h
            · split at h
              · simp at h; simp [h, tierPoints]
              · split at h
                · simp at h; simp [h, tierPoints]
                · simp at h; simp [h, tierPoints]
            · exact ih rest e h
          · exact ih rest e h

lemma taikoInputAux_events_tier (now : ℚ) (key : TaikoKey) :
    ∀ (l : List HitObject) (s : ScoreData) (ev : List Judgement) (e : Judgement),
      (∀ e' ∈ ev, e'.1 = tierPoints e'.2) →
      e ∈ (taikoInputAux now key s ev l).events → e.1 = tierPoints e.2 := by
  intro l
  induction l with
  | nil => intro s ev e hev h; simp [taikoInputAux] at h; exact hev e h
  | cons obj rest ih =>
    intro s ev e hev h
    simp only [taikoInputAux] at h
    split at h
    · exact ih s ev e hev h
    · split at h
      · simp at h; exact hev e h
      · split at h
        · split at h
          · split at h
            · split at h
              · simp at h
                rcases h with h | h
                · exact hev e h
                · simp [h, tierPoints]
              · split at h
                · simp at h
                  rcases h with h | h
                  · exact hev e h
                  · simp [h, tierPoints]
                · simp at h
                  rcases h with h | h
                  · exact hev e h
                  · simp [h, tierPoints]
            · exact ih s ev e hev h
          · split at h
            · refine ih _ _ e ?_ h
              intro e' he'
              simp at he'
              rcases he' with he' | he'
              · exact hev e' he'
              · simp [he', tierPoints]
            · exact ih s ev e hev h
        · split at h
          · split at h
            · simp at h
              rcases h with h | h
              · exact hev e h
              · simp [h, tierPoints]
            · exact ih s ev e hev h
          · exact ih s ev e hev h

lemma maniaInputAux_events_tier (now : ℚ) (c : ℤ) (s : ScoreData) :
    ∀ (l : List HitObject) (e : Judgement),
      e ∈ (maniaInputAux now c s l).events → e.1 = tierPoints e.2 := by
  intro l
  induction l with
  | nil => intro e h; simp [maniaInputAux] at h
  | cons obj rest ih =>
    intro e h
    simp only [maniaInputAux] at h
    split at h
    · exact ih e h
    · split at h
      · exact ih e h
      · split at h
        · simp at h
        · split at h
          · split at h
            · simp at h; simp [h, tierPoints]
            · split at h
              · simp at h; simp [h, tierPoints]
              · simp at h; simp [h, tierPoints]
          · exact ih e h

/-! ## Claim C2 — score-aggregator transition -/

/-- C2: the score-aggregator transition `updateScore` applied with the tier's
point value satisfies: `combo' = 0` on miss else `combo + 1`;
`totalScore' = totalScore + tierPoints(tier) × max(combo', 1)`; exactly the
matching tier counter is incremented; and
`accuracy' = (300·n300 + 100·n100 + 50·n50) / (300 · totalJudged) · 100`
(whose divide-by-zero guard returns 100, as the initial state does; after any
judgement `totalJudged > 0`).  Moreover every judgement event any of the three
discrete-input handlers emits carries exactly `tierPoints(tier)` points. -/
theorem C2_score_transition :
    (∀ (s : ScoreData) (k : HitKind),
      (updateScore s (tierPoints k) k).combo
          = (if k = HitKind.miss then 0 else s.combo + 1)
        ∧ (updateScore s (tierPoints k) k).totalScore
          = s.totalScore + tierPoints k * max (updateScore s (tierPoints k) k).combo 1
        ∧ (updateScore s (tierPoints k) k).count300
          = s.count300 + (if k = HitKind.h300 then 1 else 0)
        ∧ (updateScore s (tierPoints k) k).count100
          = s.count100 + (if k = HitKind.h100 then 1 else 0)
        ∧ (updateScore s (tierPoints k) k).count50
          = s.count50 + (if k = HitKind.h50 then 1 else 0)
        ∧ (updateScore s (tierPoints k) k).countMiss
          = s.countMiss + (if k = HitKind.miss then 1 else 0)
        ∧ 0 < (updateScore s (tierPoints k) k).count300
            + (updateScore s (tierPoints k) k).count100
            + (updateScore s (tierPoints k) k).count50
            + (updateScore s (tierPoints k) k).countMiss
        ∧ (updateScore s (tierPoints k) k).accuracy
          = (((updateScore s (tierPoints k) k).count300 * 300
              + (updateScore s (tierPoints k) k).count100 * 100
              + (updateScore s (tierPoints k) k).count50 * 50 : ℚ)
             / (((updateScore s (tierPoints k) k).count300
                + (updateScore s (tierPoints k) k).count100
                + (updateScore s (tierPoints k) k).count50
                + (updateScore s (tierPoints k) k).countMiss : ℚ) * 300)) * 100)
    ∧ initialScore.accuracy = 100
    ∧ (∀ (env : StdEnv) (st : InputState) (cx cy : ℚ),
        ∀ e ∈ (handleStandardInput env st cx cy).events, e.1 = tierPoints e.2)
    ∧ (∀ (now : ℚ) (st : InputState) (key : TaikoKey),
        ∀ e ∈ (handleTaikoInput now st key).events, e.1 = tierPoints e.2)
    ∧ (∀ (now : ℚ) (st : InputState) (c : ℤ) (dwn : Bool),
        ∀ e ∈ (handleManiaInput now st c dwn).events, e.1 = tierPoints e.2) := by
  refine ⟨?_, rfl, ?_, ?_, ?_⟩
  · intro s k
    cases k <;>
      refine ⟨rfl, ?_, rfl, rfl, rfl, rfl, by simp [updateScore], ?_⟩ <;>
      simp [updateScore, tierPoints]
  · intro env st cx cy e he
    exact stdInputAux_events_tier env cx cy st.score 10 _ e he
  · intro now st key e he
    exact taikoInputAux_events_tier now key _ st.score [] e (by simp) he
  · intro now st c dwn e he
    unfold handleManiaInput at he
    split at he
    · exact maniaInputAux_events_tier now c st.score _ e he
    · simp at he

/-- C2 witness: the transition at the initial state for a 300 judgement
(`combo = 1`, `totalScore = 300`, matching the spec's exact-press scenario),
and the event-points conjunct discharged on a concrete Taiko press. -/
theorem C2_witness :
    ((updateScore initialScore (tierPoints HitKind.h300) HitKind.h300).combo
        = (if HitKind.h300 = HitKind.miss then 0 else initialScore.combo + 1)
      ∧ ((300 : ℕ), HitKind.h300).1 = tierPoints ((300 : ℕ), HitKind.h300).2)
    ∧ (updateScore initialScore 300 HitKind.h300).combo = 1
    ∧ (updateScore initialScore 300 HitKind.h300).totalScore = 300 :=
  ⟨⟨(C2_score_transition.1 initialScore HitKind.h300).1,
    C2_score_transition.2.2.2.1 1000 ⟨[sampleTap 1000], 0, initialScore⟩
      TaikoKey.inner (300, HitKind.h300) (by
        norm_num +decide [handleTaikoInput, taikoInputAux, sampleTap, initialScore,
          updateScore, HIT_WINDOW_50, HIT_WINDOW_300, HIT_WINDOW_100])⟩,
   by norm_num +decide [updateScore, initialScore],
   by norm_num +decide [updateScore, initialScore]⟩

/-! ## Claim C9 — Catch-mode hold droplets (modelled from the spec) -/

/-- C9: a Catch Hold of duration 1000 ms with droplet interval 50 ms spawns
exactly `floor(1000/50) = 20` sub-droplets; consecutive droplets are exactly
one interval apart (evenly time-spaced); a droplet whose index is already in
the per-object caught set scores nothing; and catching the same droplet twice
changes nothing the second time (each droplet scores at most once). -/
theorem C9_catch_hold_droplets :
    catchDropletCount 1000 50 = 20
    ∧ (∀ (headTime interval : ℚ) (i : ℕ),
        catchDropletTime headTime interval (i + 1)
          - catchDropletTime headTime interval i = interval)
    ∧ (∀ (caught : Finset ℕ) (score : ScoreData) (i points : ℕ) (k : HitKind),
        i ∈ caught → catchDroplet caught score i points k = (caught, score))
    ∧ (∀ (caught : Finset ℕ) (score : ScoreData) (i points : ℕ) (k : HitKind),
        catchDroplet (catchDroplet caught score i points k).1
            (catchDroplet caught score i points k).2 i points k
          = catchDroplet caught score i points k) := by
  refine ⟨by norm_num [catchDropletCount]; rfl, ?_, ?_, ?_⟩
  · intro headTime interval i
    simp only [catchDropletTime]
    push_cast
    ring
  · intro caught score i points k hi
    simp [catchDroplet, hi]
  · intro caught score i points k
    by_cases hi : i ∈ caught
    · simp [catchDroplet, hi]
    · simp [catchDroplet, hi]

/-- C9 witness: the droplet spacing at concrete values and the at-most-once
bookkeeping on the concrete caught set `{0}`. -/
theorem C9_witness :
    (catchDropletTime 2000 50 1 - catchDropletTime 2000 50 0 = 50)
    ∧ catchDroplet ({0} : Finset ℕ) initialScore 0 20 HitKind.h50
        = (({0} : Finset ℕ), initialScore) :=
  ⟨C9_catch_hold_droplets.2.1 2000 50 0,
   C9_catch_hold_droplets.2.2.1 {0} initialScore 0 20 HitKind.h50 (by decide)⟩

/-! ## Counterexamples for the corrected claims -/

/-- C1 counterexample: a Drum (Taiko) press 120 ms late — inside the
`100 < d ≤ 150` band where the claim demands tier 50 — resolves the object
with a full-value 300 judgement (`else updateScore(300, '300')` in
`handleTaikoInput`), emitting no 50. -/
theorem C1_counterexample :
    (handleTaikoInput 1120 ⟨[sampleTap 1000], 0, initialScore⟩ TaikoKey.inner).events
        = [(300, HitKind.h300)]
    ∧ (handleTaikoInput 1120 ⟨[sampleTap 1000], 0, initialScore⟩
        TaikoKey.inner).score.count50 = 0
    ∧ (handleTaikoInput 1120 ⟨[sampleTap 1000], 0, initialScore⟩
        TaikoKey.inner).score.count300 = 1
    ∧ (handleTaikoInput 1120 ⟨[sampleTap 1000], 0, initialScore⟩ TaikoKey.inner).objs
        = [{ sampleTap 1000 with hit := true }]
    ∧ (100 : ℚ) < |(1120 : ℚ) - (sampleTap 1000).time|
    ∧ |(1120 : ℚ) - (sampleTap 1000).time| ≤ 150 := by
  norm_num +decide [handleTaikoInput, taikoInputAux, sampleTap, sampleSpinner, resolvedTap, List.replicate,
    initialScore, updateScore, HIT_WINDOW_50, HIT_WINDOW_300, HIT_WINDOW_100]

/-- C3 counterexample: one Drum press scans past two stale unresolved Taps and
marks both of them missed — two objects transition from unresolved to resolved
on a single discrete press event. -/
theorem C3_counterexample :
    (sampleTap 0).hit = false ∧ (sampleTap 0).missed = false
    ∧ (sampleTap 10).hit = false ∧ (sampleTap 10).missed = false
    ∧ (handleTaikoInput 1000 ⟨[sampleTap 0, sampleTap 10], 0, initialScore⟩
        TaikoKey.inner).objs
      = [{ sampleTap 0 with missed := true }, { sampleTap 10 with missed := true }]
    ∧ (handleTaikoInput 1000 ⟨[sampleTap 0, sampleTap 10], 0, initialScore⟩
        TaikoKey.inner).score.countMiss = 2 := by
  norm_num +decide [handleTaikoInput, taikoInputAux, sampleTap, sampleSpinner, resolvedTap, List.replicate,
    initialScore, updateScore, HIT_WINDOW_50, HIT_WINDOW_300, HIT_WINDOW_100]

/-- C5 counterexample: a Standard frame at `now = 200` sees an unresolved Hold
(slider) whose scheduled time `0` has been passed by 200 ms > 150 ms, yet the
frame marks nothing missed and emits no miss judgement — miss detection only
applies to Tap (circle) objects, not to "every unresolved object of any
kind". -/
theorem C5_counterexample :
    (sampleSlider 0 0).hit = false ∧ (sampleSlider 0 0).missed = false
    ∧ (sampleStdFrameEnv 200).now - (sampleSlider 0 0).time > HIT_WINDOW_50
    ∧ (stdFrame (sampleStdFrameEnv 200)
        ⟨[sampleSlider 0 0], 0, initialSpinnerState, initialScore⟩).objs
      = [sampleSlider 0 0]
    ∧ (stdFrame (sampleStdFrameEnv 200)
        ⟨[sampleSlider 0 0], 0, initialSpinnerState, initialScore⟩).events = [] := by
  norm_num +decide [stdFrame, stdFrameAux, stdProcessObj, stdAdvanceCond, sampleSlider,
    sampleStdFrameEnv, initialSpinnerState, initialScore, HIT_WINDOW_50]

/-- C6 counterexample: a Drum press with the cursor at 0 scans past ten
resolved objects and resolves the eleventh — the Drum scan inspects more than
10 objects from the cursor (it has no lookahead cap). -/
theorem C6_counterexample :
    (handleTaikoInput 1000
        ⟨List.replicate 10 (resolvedTap 0) ++ [sampleTap 1000], 0, initialScore⟩
        TaikoKey.inner).objs
      = List.replicate 10 (resolvedTap 0) ++ [{ sampleTap 1000 with hit := true }]
    ∧ (handleTaikoInput 1000
        ⟨List.replicate 10 (resolvedTap 0) ++ [sampleTap 1000], 0, initialScore⟩
        TaikoKey.inner).score.count300 = 1 := by
  norm_num +decide [handleTaikoInput, taikoInputAux, sampleTap, sampleSpinner, resolvedTap, List.replicate,
    initialScore, updateScore, HIT_WINDOW_50, HIT_WINDOW_300, HIT_WINDOW_100]

/-- C7 counterexample: a Drum press at `now = 500` inside a Spin object's
`[0, 1000]` range awards a 100 judgement but leaves the object completely
unchanged — it is never marked hit (resolved), so the claim's "resolved
(marked hit) immediately" fails. -/
theorem C7_counterexample :
    (sampleSpinner 0 1000).hit = false
    ∧ (sampleSpinner 0 1000).time ≤ 500 ∧ (500 : ℚ) ≤ (sampleSpinner 0 1000).endTime
    ∧ (handleTaikoInput 500 ⟨[sampleSpinner 0 1000], 0, initialScore⟩
        TaikoKey.inner).objs = [sampleSpinner 0 1000]
    ∧ (handleTaikoInput 500 ⟨[sampleSpinner 0 1000], 0, initialScore⟩
        TaikoKey.inner).events = [(100, HitKind.h100)] := by
  norm_num +decide [handleTaikoInput, taikoInputAux, sampleTap, sampleSpinner, resolvedTap, List.replicate,
    initialScore, updateScore, HIT_WINDOW_50, HIT_WINDOW_300, HIT_WINDOW_100]

/-- C8 counterexample: two lane-3 objects are both inside the widest window at
`now = 1000` (deltas 140 ms and 10 ms); the lane-3 press resolves the
first-in-chart-order object (delta 140 ms), not the temporally nearest one
(delta 10 ms). -/
theorem C8_counterexample :
    maniaColumn (sampleManiaTap 860).x = 3
    ∧ maniaColumn (sampleManiaTap 1010).x = 3
    ∧ |(1000 : ℚ) - (sampleManiaTap 1010).time|
        < |(1000 : ℚ) - (sampleManiaTap 860).time|
    ∧ |(1000 : ℚ) - (sampleManiaTap 860).time| ≤ HIT_WINDOW_50
    ∧ |(1000 : ℚ) - (sampleManiaTap 1010).time| ≤ HIT_WINDOW_50
    ∧ (handleManiaInput 1000
        ⟨[sampleManiaTap 860, sampleManiaTap 1010], 0, initialScore⟩ 3 true).objs
      = [{ sampleManiaTap 860 with hit := true }, sampleManiaTap 1010] := by
  norm_num +decide [handleManiaInput, maniaInputAux, maniaColumn, sampleManiaTap, sampleTap,
    initialScore, updateScore, HIT_WINDOW_50, HIT_WINDOW_300, HIT_WINDOW_100]

/-! ## Characterization of the Standard and Lane discrete-input scans -/

lemma stdInputAux_char (env : StdEnv) (cx cy : ℚ) :
    ∀ (fuel : ℕ) (l : List HitObject) (s : ScoreData),
      stdInputAux env cx cy s fuel l = ⟨l, s, []⟩
      ∨ ∃ (j : ℕ) (hj : j < l.length),
          (l.get ⟨j, hj⟩).hit = false ∧ (l.get ⟨j, hj⟩).missed = false
          ∧ |env.now - (l.get ⟨j, hj⟩).time| ≤ HIT_WINDOW_50
          ∧ stdInputAux env cx cy s fuel l
            = ⟨l.set j { l.get ⟨j, hj⟩ with hit := true },
               updateScore s (specTierSelect |env.now - (l.get ⟨j, hj⟩).time|).1
                 (specTierSelect |env.now - (l.get ⟨j, hj⟩).time|).2,
               [specTierSelect |env.now - (l.get ⟨j, hj⟩).time|]⟩ := by
  intro fuel
  induction fuel with
  | zero => intro l s; left; rfl
  | succ n ih =>
    intro l s
    match l with
    | [] => left; rfl
    | obj :: rest =>
      simp only [stdInputAux]
      split
      · rcases ih rest s with h | ⟨j, hj, hh, hm, hd, heq⟩
        · rw [h]; left; rfl
        · rw [heq]; right
          exact ⟨j + 1, Nat.succ_lt_succ hj, hh, hm, hd, rfl⟩
      · rename_i hres
        split
        · left; rfl
        · rename_i hfar
          split
          · rename_i hsp
            split
            · rename_i hwin
              right
              refine ⟨0, Nat.succ_pos _, ?_, ?_, hwin, ?_⟩
              · simp only [Bool.or_eq_true, not_or, Bool.not_eq_true] at hres
                exact hres.1
              · simp only [Bool.or_eq_true, not_or, Bool.not_eq_true] at hres
                exact hres.2
              · split
                · rename_i h300
                  simp only [List.get, List.set]
                  rw [specTierSelect, if_pos h300]
                · rename_i h300
                  split
                  · rename_i h100
                    simp only [List.get, List.set]
                    rw [specTierSelect, if_neg h300, if_pos h100]
                  · rename_i h100
                    simp only [List.get, List.set]
                    rw [specTierSelect, if_neg h300, if_neg h100]
            · rcases ih rest s with h | ⟨j, hj, hh, hm, hd, heq⟩
              · rw [h]; left; rfl
              · rw [heq]; right
                exact ⟨j + 1, Nat.succ_lt_succ hj, hh, hm, hd, rfl⟩
          · rcases ih rest s with h | ⟨j, hj, hh, hm, hd, heq⟩
            · rw [h]; left; rfl
            · rw [heq]; right
              exact ⟨j + 1, Nat.succ_lt_succ hj, hh, hm, hd, rfl⟩

/-- An object the Lane (Mania) scan can resolve for a press on column `c`:
unresolved, in the pressed lane, and within the widest window. -/
def maniaCandidate (now : ℚ) (c : ℤ) (obj : HitObject) : Prop :=
  obj.hit = false ∧ obj.missed = false ∧ maniaColumn obj.x = c
    ∧ |now - obj.time| ≤ HIT_WINDOW_50

lemma maniaInputAux_char (now : ℚ) (c : ℤ) :
    ∀ (l : List HitObject) (s : ScoreData),
      maniaInputAux now c s l = ⟨l, s, []⟩
      ∨ ∃ (j : ℕ) (hj : j < l.length),
          maniaCandidate now c (l.get ⟨j, hj⟩)
          ∧ (∀ (k : ℕ) (hk : k < l.length), k < j →
              ¬maniaCandidate now c (l.get ⟨k, hk⟩))
          ∧ maniaInputAux now c s l
            = ⟨l.set j { l.get ⟨j, hj⟩ with hit := true },
               updateScore s (specTierSelect |now - (l.get ⟨j, hj⟩).time|).1
                 (specTierSelect |now - (l.get ⟨j, hj⟩).time|).2,
               [specTierSelect |now - (l.get ⟨j, hj⟩).time|]⟩ := by
  intro l
  induction l with
  | nil => intro s; left; rfl
  | cons obj rest ih =>
    intro s
    simp only [maniaInputAux]
    split
    · rename_i hres
      rcases ih s with h | ⟨j, hj, hcand, hfirst, heq⟩
      · rw [h]; left; rfl
      · rw [heq]; right
        refine ⟨j + 1, Nat.succ_lt_succ hj, hcand, ?_, rfl⟩
        intro k hk hkj
        match k with
        | 0 =>
          intro hc
          rw [show ((obj :: rest).get ⟨0, hk⟩) = obj from rfl] at hc
          rw [hc.1, hc.2.1] at hres
          simp at hres
        | k + 1 =>
          exact hfirst k (Nat.lt_of_succ_lt_succ hk) (Nat.lt_of_succ_lt_succ hkj)
    · rename_i hres
      split
      · rename_i hcol
        rcases ih s with h | ⟨j, hj, hcand, hfirst, heq⟩
        · rw [h]; left; rfl
        · rw [heq]; right
          refine ⟨j + 1, Nat.succ_lt_succ hj, hcand, ?_, rfl⟩
          intro k hk hkj
          match k with
          | 0 =>
            intro hc
            exact hcol hc.2.2.1
          | k + 1 =>
            exact hfirst k (Nat.lt_of_succ_lt_succ hk) (Nat.lt_of_succ_lt_succ hkj)
      · rename_i hcol
        split
        · left; rfl
        · rename_i hfut
          split
          · rename_i hwin
            right
            refine ⟨0, Nat.succ_pos _, ?_, ?_, ?_⟩
            · simp only [Bool.or_eq_true, not_or, Bool.not_eq_true] at hres
              exact ⟨hres.1, hres.2, not_not.mp hcol, hwin⟩
            · intro k hk hkj; exact absurd hkj (Nat.not_lt_zero k)
            · split
              · rename_i h300
                simp only [List.get, List.set]
                rw [specTierSelect, if_pos h300]
              · rename_i h300
                split
                · rename_i h100
                  simp only [List.get, List.set]
                  rw [specTierSelect, if_neg h300, if_pos h100]
                · rename_i h100
                  simp only [List.get, List.set]
                  rw [specTierSelect, if_neg h300, if_neg h100]
          · rename_i hwin
            rcases ih s with h | ⟨j, hj, hcand, hfirst, heq⟩
            · rw [h]; left; rfl
            · rw [heq]; right
              refine ⟨j + 1, Nat.succ_lt_succ hj, hcand, ?_, rfl⟩
              intro k hk hkj
              match k with
              | 0 =>
                intro hc
                exact hwin hc.2.2.2
              | k + 1 =>
                exact hfirst k (Nat.lt_of_succ_lt_succ hk) (Nat.lt_of_succ_lt_succ hkj)

/-! ## Characterization of the Drum (Taiko) discrete-input scan -/

/-- Pointwise hit-flag characterization of a Drum scan result `r` against the
scanned list `l`: either no hit flag changes, or exactly one object flips to
hit, lies within the widest window, and the scan's final judgement event is
that object's Drum tier. -/
def TaikoCharP (now : ℚ) (l : List HitObject) (r : ScanOut) : Prop :=
  (∀ (j : ℕ) (d : HitObject), (r.objs.getD j d).hit = (l.getD j d).hit)
  ∨ ∃ (j : ℕ) (hj : j < l.length),
      (l.get ⟨j, hj⟩).hit = false
      ∧ |now - (l.get ⟨j, hj⟩).time| ≤ HIT_WINDOW_50
      ∧ r.events.getLast? = some (drumTierSelect |now - (l.get ⟨j, hj⟩).time|)
      ∧ (r.objs.getD j (sampleTap 0)).hit = true
      ∧ ∀ (k : ℕ) (d : HitObject), k ≠ j → (r.objs.getD k d).hit = (l.getD k d).hit

lemma taikoCharP_id (now : ℚ) (l : List HitObject) (s : ScoreData)
    (ev : List Judgement) : TaikoCharP now l ⟨l, s, ev⟩ := by
  left; intro j d; rfl

lemma taikoCharP_cons (now : ℚ) {rest : List HitObject} {r : ScanOut}
    (h : TaikoCharP now rest r) (obj obj0 : HitObject) (hhit : obj0.hit = obj.hit)
    (s2 : ScoreData) :
    TaikoCharP now (obj :: rest) ⟨obj0 :: r.objs, s2, r.events⟩ := by
  rcases h with h | ⟨j, hj, hh, hd, hlast, hhit2, hothers⟩
  · left
    intro j d
    match j with
    | 0 => exact hhit
    | j + 1 => exact h j d
  · right
    refine ⟨j + 1, Nat.succ_lt_succ hj, hh, hd, hlast, hhit2, ?_⟩
    intro k d hk
    match k with
    | 0 => exact hhit
    | k + 1 => exact hothers k d (fun he => hk (by rw [he]))

lemma taikoInputAux_hit_char (now : ℚ) (key : TaikoKey) :
    ∀ (l : List HitObject) (s : ScoreData) (ev : List Judgement),
      TaikoCharP now l (taikoInputAux now key s ev l) := by
  intro l
  induction l with
  | nil => intro s ev; exact taikoCharP_id ..
  | cons obj rest ih =>
    intro s ev
    generalize hR : taikoInputAux now key s ev (obj :: rest) = R
    rw [taikoInputAux] at hR
    dsimp only at hR
    split at hR
    · rw [← hR]; exact taikoCharP_cons now (ih s ev) obj obj rfl _
    · split at hR
      · rw [← hR]; exact taikoCharP_id ..
      · split at hR
        · split at hR
          · split at hR
            · rename_i hres hfut htype hwin hmatch
              simp only [Bool.or_eq_true, not_or, Bool.not_eq_true] at hres
              split at hR
              · rename_i h300
                rw [← hR]
                right
                refine ⟨0, Nat.succ_pos _, hres.1, hwin, ?_, rfl, ?_⟩
                · rw [show drumTierSelect |now - ((obj :: rest).get ⟨0, Nat.succ_pos _⟩).time|
                      = (300, HitKind.h300) by
                    show drumTierSelect |now - obj.time| = (300, HitKind.h300)
                    rw [drumTierSelect]; exact if_pos h300]
                  exact List.getLast?_concat ..
                · intro k d hk
                  match k with
                  | 0 => exact absurd rfl hk
                  | k + 1 => rfl
              · rename_i h300
                split at hR
                · rename_i h100
                  rw [← hR]
                  right
                  refine ⟨0, Nat.succ_pos _, hres.1, hwin, ?_, rfl, ?_⟩
                  · rw [show drumTierSelect |now - ((obj :: rest).get ⟨0, Nat.succ_pos _⟩).time|
                        = (100, HitKind.h100) by
                      show drumTierSelect |now - obj.time| = (100, HitKind.h100)
                      rw [drumTierSelect, if_neg h300]; exact if_pos h100]
                    exact List.getLast?_concat ..
                  · intro k d hk
                    match k with
                    | 0 => exact absurd rfl hk
                    | k + 1 => rfl
                · rename_i h100
                  rw [← hR]
                  right
                  refine ⟨0, Nat.succ_pos _, hres.1, hwin, ?_, rfl, ?_⟩
                  · rw [show drumTierSelect |now - ((obj :: rest).get ⟨0, Nat.succ_pos _⟩).time|
                        = (300, HitKind.h300) by
                      show drumTierSelect |now - obj.time| = (300, HitKind.h300)
                      rw [drumTierSelect, if_neg h300]; exact if_neg h100]
                    exact List.getLast?_concat ..
                  · intro k d hk
                    match k with
                    | 0 => exact absurd rfl hk
                    | k + 1 => rfl
            · rw [← hR]; exact taikoCharP_cons now (ih s ev) obj obj rfl _
          · split at hR
            · rw [← hR]
              exact taikoCharP_cons now
                (ih (updateScore s 0 HitKind.miss) (ev ++ [(0, HitKind.miss)]))
                obj { obj with missed := true } rfl _
            · rw [← hR]; exact taikoCharP_cons now (ih s ev) obj obj rfl _
        · split at hR
          · split at hR
            · rw [← hR]; exact taikoCharP_id ..
            · rw [← hR]; exact taikoCharP_cons now (ih s ev) obj obj rfl _
          · rw [← hR]; exact taikoCharP_cons now (ih s ev) obj obj rfl _

/-! ## Generic list-splicing helpers -/

lemma getD_take_append_left {α : Type} (l w : List α) (c j : ℕ) (d : α)
    (hc : c ≤ l.length) (hj : j < c) :
    (l.take c ++ w).getD j d = l.getD j d := by
  rw [List.getD_append]
  · simp [List.getD, List.getElem?_take, hj]
  · simpa [Nat.min_eq_left hc] using hj

lemma getD_take_append_right {α : Type} (l w : List α) (c j : ℕ) (d : α)
    (hc : c ≤ l.length) (hj : c ≤ j) :
    (l.take c ++ w).getD j d = w.getD (j - c) d := by
  rw [List.getD_append_right]
  · simp [Nat.min_eq_left hc]
  · simpa [Nat.min_eq_left hc] using hj

lemma drop_take_append {α : Type} (l w : List α) (c j : ℕ)
    (hc : c ≤ l.length) (hj : c ≤ j) :
    (l.take c ++ w).drop j = w.drop (j - c) := by
  rw [List.drop_append_eq_append_drop]
  simp [Nat.min_eq_left hc, List.drop_eq_nil_of_le, hj]

lemma getD_set_self {α : Type} (l : List α) (n : ℕ) (a d : α) (h : n < l.length) :
    (l.set n a).getD n d = a := by
  simp [List.getD, List.getElem?_set_eq_of_lt a h]

lemma getD_set_ne {α : Type} (l : List α) {n m : ℕ} (a d : α) (h : n ≠ m) :
    (l.set n a).getD m d = l.getD m d := by
  simp [List.getD, List.getElem?_set_ne h]

lemma getD_eq_get {α : Type} (l : List α) (n : ℕ) (d : α) (h : n < l.length) :
    l.getD n d = l.get ⟨n, h⟩ := by
  simp [List.getD, List.getElem?_eq_getElem h]

lemma getD_drop {α : Type} (l : List α) (c i : ℕ) (d : α) :
    (l.drop c).getD i d = l.getD (c + i) d := by
  simp [List.getD, List.getElem?_drop]

/-! ## Drum miss marking and early-stop lemmas -/

lemma taikoInputAux_missflip (now : ℚ) (key : TaikoKey) :
    ∀ (l : List HitObject) (s : ScoreData) (ev : List Judgement)
      (j : ℕ) (d : HitObject),
      ((taikoInputAux now key s ev l).objs.getD j d).missed = true →
      (l.getD j d).missed = true
      ∨ ((l.getD j d).hit = false
          ∧ ((l.getD j d).type = HitType.circle ∨ (l.getD j d).type = HitType.slider)
          ∧ now > (l.getD j d).time + HIT_WINDOW_50) := by
  intro l
  induction l with
  | nil => intro s ev j d h; left; exact h
  | cons obj rest ih =>
    intro s ev j d
    generalize hR : taikoInputAux now key s ev (obj :: rest) = R
    rw [taikoInputAux] at hR
    dsimp only at hR
    split at hR
    · rw [← hR]
      match j with
      | 0 => intro h; left; exact h
      | j + 1 => exact ih s ev j d
    · split at hR
      · rw [← hR]; intro h; left; exact h
      · split at hR
        · split at hR
          · split at hR
            · split at hR
              · rw [← hR]
                match j with
                | 0 => intro h; left; exact h
                | j + 1 => intro h; left; exact h
              · split at hR
                · rw [← hR]
                  match j with
                  | 0 => intro h; left; exact h
                  | j + 1 => intro h; left; exact h
                · rw [← hR]
                  match j with
                  | 0 => intro h; left; exact h
                  | j + 1 => intro h; left; exact h
            · rw [← hR]
              match j with
              | 0 => intro h; left; exact h
              | j + 1 => exact ih s ev j d
          · split at hR
            · rename_i hres hfut htype hwin hmiss
              simp only [Bool.or_eq_true, not_or, Bool.not_eq_true] at hres
              rw [← hR]
              match j with
              | 0 => intro _; right; exact ⟨hres.1, htype, hmiss⟩
              | j + 1 => exact ih (updateScore s 0 HitKind.miss) (ev ++ [(0, HitKind.miss)]) j d
            · rw [← hR]
              match j with
              | 0 => intro h; left; exact h
              | j + 1 => exact ih s ev j d
        · split at hR
          · split at hR
            · rw [← hR]; intro h; left; exact h
            · rw [← hR]
              match j with
              | 0 => intro h; left; exact h
              | j + 1 => exact ih s ev j d
          · rw [← hR]
            match j with
            | 0 => intro h; left; exact h
            | j + 1 => exact ih s ev j d

lemma taikoInputAux_spinner_scan (now : ℚ) (key : TaikoKey) :
    ∀ (l : List HitObject) (s : ScoreData) (ev : List Judgement)
      (j : ℕ) (hj : j < l.length),
      (∀ (k : ℕ) (hk : k < l.length), k < j →
        (l.get ⟨k, hk⟩).hit = true ∨ (l.get ⟨k, hk⟩).missed = true) →
      (l.get ⟨j, hj⟩).type = HitType.spinner →
      (l.get ⟨j, hj⟩).hit = false → (l.get ⟨j, hj⟩).missed = false →
      (l.get ⟨j, hj⟩).time ≤ now → now ≤ (l.get ⟨j, hj⟩).endTime →
      taikoInputAux now key s ev l
        = ⟨l, updateScore s 100 HitKind.h100, ev ++ [(100, HitKind.h100)]⟩ := by
  intro l
  induction l with
  | nil => intro s ev j hj; exact absurd hj (Nat.not_lt_zero j)
  | cons obj rest ih =>
    intro s ev j hj hprev htype hhit hmiss ht1 ht2
    match j with
    | 0 =>
      rw [show ((obj :: rest).get ⟨0, hj⟩) = obj from rfl] at htype hhit hmiss ht1 ht2
      rw [taikoInputAux]
      dsimp only
      rw [if_neg (by simp [hhit, hmiss]),
          if_neg (by
            simp only [not_lt]
            have h0 : (0 : ℚ) ≤ HIT_WINDOW_50 := by norm_num [HIT_WINDOW_50]
            linarith),
          if_neg (by rw [htype]; simp),
          if_pos htype,
          if_pos ⟨ht1, ht2⟩]
    | j + 1 =>
      have hhead : (obj.hit || obj.missed) = true := by
        simp only [Bool.or_eq_true]
        exact hprev 0 (Nat.succ_pos _) (Nat.succ_pos _)
      have hr := ih s ev j (Nat.lt_of_succ_lt_succ hj)
        (fun k hk hkj => hprev (k + 1) (Nat.succ_lt_succ hk) (Nat.succ_lt_succ hkj))
        htype hhit hmiss ht1 ht2
      rw [taikoInputAux]
      dsimp only
      rw [if_pos hhead, hr]

lemma stdInputAux_drop_fuel (env : StdEnv) (cx cy : ℚ) (s : ScoreData) :
    ∀ (fuel : ℕ) (l : List HitObject),
      (stdInputAux env cx cy s fuel l).objs.drop fuel = l.drop fuel := by
  intro fuel
  induction fuel with
  | zero => intro l; rfl
  | succ n ih =>
    intro l
    match l with
    | [] => simp [stdInputAux]
    | obj :: rest =>
      generalize hR : stdInputAux env cx cy s (n + 1) (obj :: rest) = R
      rw [stdInputAux] at hR
      dsimp only at hR
      split at hR
      · rw [← hR]; simp only [List.drop_succ_cons]; exact ih rest
      · split at hR
        · rw [← hR]
        · split at hR
          · split at hR
            · split at hR
              · rw [← hR]; rfl
              · split at hR
                · rw [← hR]; rfl
                · rw [← hR]; rfl
            · rw [← hR]; simp only [List.drop_succ_cons]; exact ih rest
          · rw [← hR]; simp only [List.drop_succ_cons]; exact ih rest

lemma stdInputAux_stop (env : StdEnv) (cx cy : ℚ) (s : ScoreData) :
    ∀ (fuel : ℕ) (l : List HitObject) (j : ℕ) (hj : j < l.length),
      (l.get ⟨j, hj⟩).hit = false → (l.get ⟨j, hj⟩).missed = false →
      env.now < (l.get ⟨j, hj⟩).time - env.approachTime →
      (stdInputAux env cx cy s fuel l).objs.drop j = l.drop j := by
  intro fuel
  induction fuel with
  | zero => intro l j hj _ _ _; rfl
  | succ n ih =>
    intro l j hj hhit hmiss hfar
    match l, j with
    | obj :: rest, 0 =>
      rw [show ((obj :: rest).get ⟨0, hj⟩) = obj from rfl] at hhit hmiss hfar
      rw [stdInputAux]
      dsimp only
      rw [if_neg (by simp [hhit, hmiss]), if_pos hfar]
    | obj :: rest, j + 1 =>
      generalize hR : stdInputAux env cx cy s (n + 1) (obj :: rest) = R
      rw [stdInputAux] at hR
      dsimp only at hR
      split at hR
      · rw [← hR]
        simp only [List.drop_succ_cons]
        exact ih rest j (Nat.lt_of_succ_lt_succ hj) hhit hmiss hfar
      · split at hR
        · rw [← hR]
        · split at hR
          · split at hR
            · split at hR
              · rw [← hR]; rfl
              · split at hR
                · rw [← hR]; rfl
                · rw [← hR]; rfl
            · rw [← hR]
              simp only [List.drop_succ_cons]
              exact ih rest j (Nat.lt_of_succ_lt_succ hj) hhit hmiss hfar
          · rw [← hR]
            simp only [List.drop_succ_cons]
            exact ih rest j (Nat.lt_of_succ_lt_succ hj) hhit hmiss hfar

lemma taikoInputAux_stop (now : ℚ) (key : TaikoKey) :
    ∀ (l : List HitObject) (s : ScoreData) (ev : List Judgement)
      (j : ℕ) (hj : j < l.length),
      (l.get ⟨j, hj⟩).hit = false → (l.get ⟨j, hj⟩).missed = false →
      (l.get ⟨j, hj⟩).time - now > HIT_WINDOW_50 →
      (taikoInputAux now key s ev l).objs.drop j = l.drop j := by
  intro l
  induction l with
  | nil => intro s ev j hj; exact absurd hj (Nat.not_lt_zero j)
  | cons obj rest ih =>
    intro s ev j hj hhit hmiss hfar
    match j with
    | 0 =>
      rw [show ((obj :: rest).get ⟨0, hj⟩) = obj from rfl] at hhit hmiss hfar
      rw [taikoInputAux]
      dsimp only
      rw [if_neg (by simp [hhit, hmiss]), if_pos hfar]
    | j + 1 =>
      generalize hR : taikoInputAux now key s ev (obj :: rest) = R
      rw [taikoInputAux] at hR
      dsimp only at hR
      split at hR
      · rw [← hR]
        simp only [List.drop_succ_cons]
        exact ih s ev j (Nat.lt_of_succ_lt_succ hj) hhit hmiss hfar
      · split at hR
        · rw [← hR]
        · split at hR
          · split at hR
            · split at hR
              · split at hR
                · rw [← hR]; rfl
                · split at hR
                  · rw [← hR]; rfl
                  · rw [← hR]; rfl
              · rw [← hR]
                simp only [List.drop_succ_cons]
                exact ih s ev j (Nat.lt_of_succ_lt_succ hj) hhit hmiss hfar
            · split at hR
              · rw [← hR]
                simp only [List.drop_succ_cons]
                exact ih (updateScore s 0 HitKind.miss) (ev ++ [(0, HitKind.miss)]) j
                  (Nat.lt_of_succ_lt_succ hj) hhit hmiss hfar
              · rw [← hR]
                simp only [List.drop_succ_cons]
                exact ih s ev j (Nat.lt_of_succ_lt_succ hj) hhit hmiss hfar
          · split at hR
            · split at hR
              · rw [← hR]
              · rw [← hR]
                simp only [List.drop_succ_cons]
                exact ih s ev j (Nat.lt_of_succ_lt_succ hj) hhit hmiss hfar
            · rw [← hR]
              simp only [List.drop_succ_cons]
              exact ih s ev j (Nat.lt_of_succ_lt_succ hj) hhit hmiss hfar

lemma maniaInputAux_stop (now : ℚ) (c : ℤ) :
    ∀ (l : List HitObject) (s : ScoreData) (j : ℕ) (hj : j < l.length),
      (l.get ⟨j, hj⟩).hit = false → (l.get ⟨j, hj⟩).missed = false →
      maniaColumn (l.get ⟨j, hj⟩).x = c →
      (l.get ⟨j, hj⟩).time - now > HIT_WINDOW_50 →
      (maniaInputAux now c s l).objs.drop j = l.drop j := by
  intro l
  induction l with
  | nil => intro s j hj; exact absurd hj (Nat.not_lt_zero j)
  | cons obj rest ih =>
    intro s j hj hhit hmiss hcol hfar
    match j with
    | 0 =>
      rw [show ((obj :: rest).get ⟨0, hj⟩) = obj from rfl] at hhit hmiss hcol hfar
      rw [maniaInputAux]
      dsimp only
      rw [if_neg (by simp [hhit, hmiss]), if_neg (by rw [hcol]; exact not_not.mpr rfl),
          if_pos hfar]
    | j + 1 =>
      generalize hR : maniaInputAux now c s (obj :: rest) = R
      rw [maniaInputAux] at hR
      dsimp only at hR
      split at hR
      · rw [← hR]
        simp only [List.drop_succ_cons]
        exact ih s j (Nat.lt_of_succ_lt_succ hj) hhit hmiss hcol hfar
      · split at hR
        · rw [← hR]
          simp only [List.drop_succ_cons]
          exact ih s j (Nat.lt_of_succ_lt_succ hj) hhit hmiss hcol hfar
        · split at hR
          · rw [← hR]
          · split at hR
            · split at hR
              · rw [← hR]; rfl
              · split at hR
                · rw [← hR]; rfl
                · rw [← hR]; rfl
            · rw [← hR]
              simp only [List.drop_succ_cons]
              exact ih s j (Nat.lt_of_succ_lt_succ hj) hhit hmiss hcol hfar

/-! ## Standard-frame lemmas -/

lemma stdProcessObj_missed (env : StdFrameEnv) (sp : SpinnerState) (s : ScoreData)
    (obj : HitObject) : (stdProcessObj env sp s obj).obj.missed = obj.missed := by
  unfold stdProcessObj
  dsimp only
  repeat' split
  all_goals rfl

lemma stdProcessObj_rotation (env : StdFrameEnv) (sp : SpinnerState) (s : ScoreData)
    (obj : HitObject) :
    sp.totalRotation ≤ (stdProcessObj env sp s obj).spinner.totalRotation := by
  unfold stdProcessObj
  dsimp only
  repeat' split
  all_goals simp [le_add_iff_nonneg_right, abs_nonneg]

lemma stdProcessObj_spin (env : StdFrameEnv) (sp : SpinnerState) (s : ScoreData)
    (obj : HitObject) (htype : obj.type = HitType.spinner)
    (h1 : obj.time ≤ env.now) (h2 : env.now ≤ obj.endTime)
    (hdown : env.isDown = true) (hrot : PI * 8 < sp.totalRotation)
    (hspun : obj.wasSpun = false) :
    (stdProcessObj env sp s obj).obj.hit = true
      ∧ (stdProcessObj env sp s obj).obj.wasSpun = true := by
  unfold stdProcessObj
  rw [if_neg (by rw [htype]; simp), if_pos htype, if_pos ⟨h1, h2⟩, if_pos hdown]
  dsimp only
  split
  · rw [if_pos ⟨by
      dsimp only
      have := abs_nonneg (wrapAngle (env.pointerAngle - sp.lastAngle))
      linarith, hspun⟩]
    exact ⟨rfl, rfl⟩
  · rw [if_pos ⟨by
      dsimp only
      have := abs_nonneg (wrapAngle (env.pointerAngle - sp.lastAngle))
      linarith, hspun⟩]
    exact ⟨rfl, rfl⟩

lemma stdFrameAux_cursor_mono (env : StdFrameEnv) :
    ∀ (l : List HitObject) (i c : ℕ) (sp : SpinnerState) (s : ScoreData)
      (ad : Bool), c ≤ (stdFrameAux env i c sp s ad l).cursor := by
  intro l
  induction l with
  | nil => intro i c sp s ad; exact le_refl c
  | cons obj rest ih =>
    intro i c sp s ad
    rw [stdFrameAux]
    dsimp only
    split
    · refine le_trans ?_ (ih (i + 1) (if i = c then c + 1 else c) sp s ad)
      split <;> omega
    · split
      · exact ih (i + 1) c sp (updateScore s 0 HitKind.miss) false
      · split
        · exact ih (i + 1) c _ _ false
        · exact le_refl c

lemma stdFrameAux_cursor_frozen (env : StdFrameEnv) :
    ∀ (l : List HitObject) (i c : ℕ) (sp : SpinnerState) (s : ScoreData)
      (ad : Bool), c < i → (stdFrameAux env i c sp s ad l).cursor = c := by
  intro l
  induction l with
  | nil => intro i c sp s ad _; rfl
  | cons obj rest ih =>
    intro i c sp s ad hci
    rw [stdFrameAux]
    dsimp only
    split
    · rw [if_neg (by omega)]
      exact ih (i + 1) c sp s ad (by omega)
    · split
      · exact ih (i + 1) c sp (updateScore s 0 HitKind.miss) false (by omega)
      · split
        · exact ih (i + 1) c _ _ false (by omega)
        · rfl

lemma stdFrameAux_advance (env : StdFrameEnv) :
    ∀ (l : List HitObject) (i : ℕ) (sp : SpinnerState) (s : ScoreData)
      (ad : Bool) (j : ℕ),
      i ≤ j → j < (stdFrameAux env i i sp s ad l).cursor →
      ∃ (hj : j - i < l.length), stdAdvanceCond env.now (l.get ⟨j - i, hj⟩) := by
  intro l
  induction l with
  | nil =>
    intro i sp s ad j hij hlt
    rw [stdFrameAux] at hlt
    dsimp only at hlt
    exact absurd hlt (by omega)
  | cons obj rest ih =>
    intro i sp s ad j hij hlt
    rw [stdFrameAux] at hlt
    dsimp only at hlt
    split at hlt
    · rename_i hadv
      rw [if_pos rfl] at hlt
      rcases Nat.eq_or_lt_of_le hij with heq | hgt
      · subst heq
        exact ⟨by simp, by simpa using hadv⟩
      · have hlt' : j < (stdFrameAux env (i + 1) (i + 1) sp s ad rest).cursor := by
          dsimp only at hlt
          exact hlt
        rcases ih (i + 1) sp s ad j hgt hlt' with ⟨hj, hcond⟩
        have hidx : j - i = (j - (i + 1)) + 1 := by omega
        refine ⟨by simp; omega, ?_⟩
        have hget : (obj :: rest).get ⟨j - i, by simp; omega⟩
            = rest.get ⟨j - (i + 1), hj⟩ := by
          rw [show (⟨j - i, by simp; omega⟩ : Fin (obj :: rest).length)
                = ⟨(j - (i + 1)) + 1, by simp [hj]⟩ from Fin.ext hidx]
          rfl
        rw [hget]
        exact hcond
    · split at hlt
      · dsimp only at hlt
        rw [stdFrameAux_cursor_frozen env rest (i + 1) i _ _ false (by omega)] at hlt
        exact absurd hlt (by omega)
      · split at hlt
        · dsimp only at hlt
          rw [stdFrameAux_cursor_frozen env rest (i + 1) i _ _ false (by omega)] at hlt
          exact absurd hlt (by omega)
        · dsimp only at hlt
          exact absurd hlt (by omega)

lemma stdFrameAux_rotation (env : StdFrameEnv) :
    ∀ (l : List HitObject) (i c : ℕ) (sp : SpinnerState) (s : ScoreData)
      (ad : Bool),
      sp.totalRotation ≤ (stdFrameAux env i c sp s ad l).spinner.totalRotation := by
  intro l
  induction l with
  | nil => intro i c sp s ad; exact le_refl _
  | cons obj rest ih =>
    intro i c sp s ad
    rw [stdFrameAux]
    dsimp only
    split
    · exact ih (i + 1) (if i = c then c + 1 else c) sp s ad
    · split
      · exact ih (i + 1) c sp (updateScore s 0 HitKind.miss) false
      · split
        · exact le_trans (stdProcessObj_rotation env sp s obj)
            (ih (i + 1) c _ _ false)
        · exact le_refl _

lemma stdFrameAux_missed_preserved (env : StdFrameEnv) :
    ∀ (l : List HitObject) (i c : ℕ) (sp : SpinnerState) (s : ScoreData)
      (ad : Bool) (j : ℕ) (d : HitObject),
      (l.getD j d).type ≠ HitType.circle →
      ((stdFrameAux env i c sp s ad l).objs.getD j d).missed = (l.getD j d).missed := by
  intro l
  induction l with
  | nil => intro i c sp s ad j d _; rfl
  | cons obj rest ih =>
    intro i c sp s ad j d htype
    generalize hR : stdFrameAux env i c sp s ad (obj :: rest) = R
    rw [stdFrameAux] at hR
    dsimp only at hR
    split at hR
    · rw [← hR]
      match j with
      | 0 => rfl
      | j + 1 => exact ih (i + 1) _ sp s ad j d htype
    · split at hR
      · rename_i hmissb
        rw [← hR]
        match j with
        | 0 => exact absurd hmissb.2.2 htype
        | j + 1 => exact ih (i + 1) c sp (updateScore s 0 HitKind.miss) false j d htype
      · split at hR
        · rw [← hR]
          match j with
          | 0 => exact stdProcessObj_missed env sp s obj
          | j + 1 => exact ih (i + 1) c _ _ false j d htype
        · rw [← hR]

lemma stdFrameAux_missmark (env : StdFrameEnv) (hAT : 0 ≤ env.approachTime) :
    ∀ (l : List HitObject) (i c : ℕ) (sp : SpinnerState) (s : ScoreData)
      (ad : Bool) (j : ℕ) (hj : j < l.length),
      (∀ (k : ℕ) (hk : k < l.length), k < j →
        (l.get ⟨k, hk⟩).time ≤ (l.get ⟨j, hj⟩).time) →
      (l.get ⟨j, hj⟩).hit = false → (l.get ⟨j, hj⟩).missed = false →
      (l.get ⟨j, hj⟩).type = HitType.circle →
      (l.get ⟨j, hj⟩).time - env.now < -HIT_WINDOW_50 →
      ((stdFrameAux env i c sp s ad l).objs.getD j (sampleTap 0)).missed = true := by
  intro l
  induction l with
  | nil => intro i c sp s ad j hj; exact absurd hj (Nat.not_lt_zero j)
  | cons obj rest ih =>
    intro i c sp s ad j hj hsort hhit hmiss htype hlate
    match j with
    | 0 =>
      rw [show ((obj :: rest).get ⟨0, hj⟩) = obj from rfl] at hhit hmiss htype hlate
      rw [stdFrameAux]
      dsimp only
      rw [if_neg (by simp [stdAdvanceCond, hhit, hmiss, htype]),
          if_pos ⟨hlate, hhit, htype⟩]
      rfl
    | j + 1 =>
      generalize hR : stdFrameAux env i c sp s ad (obj :: rest) = R
      rw [stdFrameAux] at hR
      dsimp only at hR
      split at hR
      · rw [← hR]
        exact ih (i + 1) _ sp s ad j (Nat.lt_of_succ_lt_succ hj)
          (fun k hk hkj => hsort (k + 1) (Nat.succ_lt_succ hk) (Nat.succ_lt_succ hkj))
          hhit hmiss htype hlate
      · split at hR
        · rw [← hR]
          exact ih (i + 1) c sp (updateScore s 0 HitKind.miss) false j
            (Nat.lt_of_succ_lt_succ hj)
            (fun k hk hkj => hsort (k + 1) (Nat.succ_lt_succ hk) (Nat.succ_lt_succ hkj))
            hhit hmiss htype hlate
        · split at hR
          · rw [← hR]
            exact ih (i + 1) c _ _ false j (Nat.lt_of_succ_lt_succ hj)
              (fun k hk hkj => hsort (k + 1) (Nat.succ_lt_succ hk) (Nat.succ_lt_succ hkj))
              hhit hmiss htype hlate
          · rename_i hnoadv hnomiss hfar
            exfalso
            have hs0 := hsort 0 (Nat.succ_pos _) (Nat.succ_pos _)
            have hw : (0 : ℚ) < HIT_WINDOW_50 := by norm_num [HIT_WINDOW_50]
            rw [show ((obj :: rest).get ⟨0, Nat.succ_pos _⟩) = obj from rfl] at hs0
            exact hfar (by linarith)

lemma stdFrameAux_spin (env : StdFrameEnv) (hAT : 0 ≤ env.approachTime)
    (hdown : env.isDown = true) :
    ∀ (l : List HitObject) (i c : ℕ) (sp : SpinnerState) (s : ScoreData)
      (ad : Bool) (j : ℕ) (hj : j < l.length),
      (∀ (k : ℕ) (hk : k < l.length), k < j →
        (l.get ⟨k, hk⟩).time ≤ (l.get ⟨j, hj⟩).time) →
      (l.get ⟨j, hj⟩).type = HitType.spinner →
      (l.get ⟨j, hj⟩).hit = false → (l.get ⟨j, hj⟩).missed = false →
      (l.get ⟨j, hj⟩).wasSpun = false →
      (l.get ⟨j, hj⟩).time ≤ env.now → env.now ≤ (l.get ⟨j, hj⟩).endTime →
      PI * 8 < sp.totalRotation →
      ((stdFrameAux env i c sp s ad l).objs.getD j (sampleTap 0)).hit = true
      ∧ ((stdFrameAux env i c sp s ad l).objs.getD j (sampleTap 0)).wasSpun = true := by
  intro l
  induction l with
  | nil => intro i c sp s ad j hj; exact absurd hj (Nat.not_lt_zero j)
  | cons obj rest ih =>
    intro i c sp s ad j hj hsort htype hhit hmiss hspun ht1 ht2 hrot
    match j with
    | 0 =>
      rw [show ((obj :: rest).get ⟨0, hj⟩) = obj from rfl]
        at htype hhit hmiss hspun ht1 ht2
      rw [stdFrameAux]
      dsimp only
      rw [if_neg (by
            rw [stdAdvanceCond, htype]
            push_neg
            refine ⟨fun h => absurd h (by simp), fun _ => ?_⟩
            linarith),
          if_neg (by rw [htype]; simp),
          if_pos (by
            have : obj.time - env.now ≤ 0 := by linarith
            linarith)]
      have hp := stdProcessObj_spin env sp s obj htype ht1 ht2 hdown hrot hspun
      exact ⟨hp.1, hp.2⟩
    | j + 1 =>
      generalize hR : stdFrameAux env i c sp s ad (obj :: rest) = R
      rw [stdFrameAux] at hR
      dsimp only at hR
      split at hR
      · rw [← hR]
        exact ih (i + 1) _ sp s ad j (Nat.lt_of_succ_lt_succ hj)
          (fun k hk hkj => hsort (k + 1) (Nat.succ_lt_succ hk) (Nat.succ_lt_succ hkj))
          htype hhit hmiss hspun ht1 ht2 hrot
      · split at hR
        · rw [← hR]
          exact ih (i + 1) c sp (updateScore s 0 HitKind.miss) false j
            (Nat.lt_of_succ_lt_succ hj)
            (fun k hk hkj => hsort (k + 1) (Nat.succ_lt_succ hk) (Nat.succ_lt_succ hkj))
            htype hhit hmiss hspun ht1 ht2 hrot
        · split at hR
          · rw [← hR]
            exact ih (i + 1) c _ _ false j (Nat.lt_of_succ_lt_succ hj)
              (fun k hk hkj => hsort (k + 1) (Nat.succ_lt_succ hk) (Nat.succ_lt_succ hkj))
              htype hhit hmiss hspun ht1 ht2
              (lt_of_lt_of_le hrot (stdProcessObj_rotation env sp s obj))
          · rename_i hnoadv hnomiss hfar
            exfalso
            have hs0 := hsort 0 (Nat.succ_pos _) (Nat.succ_pos _)
            rw [show ((obj :: rest).get ⟨0, Nat.succ_pos _⟩) = obj from rfl] at hs0
            exact hfar (by linarith)

/-! ## Taiko and Mania frame lemmas -/

/-- Resolvedness: the cursor-advance condition of the Taiko and Mania draw
loops (`if (obj.hit || obj.missed)`). -/
def resolvedObj (obj : HitObject) : Prop := obj.hit = true ∨ obj.missed = true

lemma taikoFrameAux_cursor_mono (env : TaikoFrameEnv) :
    ∀ (l : List HitObject) (i c : ℕ) (s : ScoreData),
      c ≤ (taikoFrameAux env i c s l).cursor := by
  intro l
  induction l with
  | nil => intro i c s; exact le_refl c
  | cons obj rest ih =>
    intro i c s
    rw [taikoFrameAux]
    dsimp only
    split
    · refine le_trans ?_ (ih (i + 1) (if i = c then c + 1 else c) s)
      split <;> omega
    · split
      · exact le_refl c
      · split
        · exact ih (i + 1) c (updateScore s 0 HitKind.miss)
        · exact ih (i + 1) c s

lemma taikoFrameAux_cursor_frozen (env : TaikoFrameEnv) :
    ∀ (l : List HitObject) (i c : ℕ) (s : ScoreData),
      c < i → (taikoFrameAux env i c s l).cursor = c := by
  intro l
  induction l with
  | nil => intro i c s _; rfl
  | cons obj rest ih =>
    intro i c s hci
    rw [taikoFrameAux]
    dsimp only
    split
    · rw [if_neg (by omega)]
      exact ih (i + 1) c s (by omega)
    · split
      · rfl
      · split
        · exact ih (i + 1) c (updateScore s 0 HitKind.miss) (by omega)
        · exact ih (i + 1) c s (by omega)

lemma taikoFrameAux_advance (env : TaikoFrameEnv) :
    ∀ (l : List HitObject) (i : ℕ) (s : ScoreData) (j : ℕ),
      i ≤ j → j < (taikoFrameAux env i i s l).cursor →
      ∃ (hj : j - i < l.length), resolvedObj (l.get ⟨j - i, hj⟩) := by
  intro l
  induction l with
  | nil =>
    intro i s j hij hlt
    rw [taikoFrameAux] at hlt
    dsimp only at hlt
    exact absurd hlt (by omega)
  | cons obj rest ih =>
    intro i s j hij hlt
    rw [taikoFrameAux] at hlt
    dsimp only at hlt
    split at hlt
    · rename_i hadv
      rw [if_pos rfl] at hlt
      rcases Nat.eq_or_lt_of_le hij with heq | hgt
      · subst heq
        refine ⟨by simp, ?_⟩
        rw [show (⟨i - i, by simp⟩ : Fin (obj :: rest).length) = ⟨0, Nat.succ_pos _⟩
              from Fin.ext (Nat.sub_self i)]
        simpa [resolvedObj, Bool.or_eq_true] using hadv
      · rcases ih (i + 1) s j hgt hlt with ⟨hj, hcond⟩
        have hidx : j - i = (j - (i + 1)) + 1 := by omega
        refine ⟨by simp; omega, ?_⟩
        have hget : (obj :: rest).get ⟨j - i, by simp; omega⟩
            = rest.get ⟨j - (i + 1), hj⟩ := by
          rw [show (⟨j - i, by simp; omega⟩ : Fin (obj :: rest).length)
                = ⟨(j - (i + 1)) + 1, by simp [hj]⟩ from Fin.ext hidx]
          rfl
        rw [hget]
        exact hcond
    · split at hlt
      · dsimp only at hlt
        exact absurd hlt (by omega)
      · split at hlt
        · dsimp only at hlt
          rw [taikoFrameAux_cursor_frozen env rest (i + 1) i _ (by omega)] at hlt
          exact absurd hlt (by omega)
        · dsimp only at hlt
          rw [taikoFrameAux_cursor_frozen env rest (i + 1) i _ (by omega)] at hlt
          exact absurd hlt (by omega)

lemma taikoFrameAux_missmark (env : TaikoFrameEnv) (hspeed : 0 ≤ env.speed)
    (hwidth : 60 ≤ env.width) :
    ∀ (l : List HitObject) (i c : ℕ) (s : ScoreData) (j : ℕ) (hj : j < l.length),
      (∀ (k : ℕ) (hk : k < l.length), k < j →
        (l.get ⟨k, hk⟩).time ≤ (l.get ⟨j, hj⟩).time) →
      (l.get ⟨j, hj⟩).hit = false → (l.get ⟨j, hj⟩).missed = false →
      (l.get ⟨j, hj⟩).type = HitType.circle →
      TAIKO_HIT_X + ((l.get ⟨j, hj⟩).time - env.now) * env.speed
        < TAIKO_HIT_X - 100 →
      ((taikoFrameAux env i c s l).objs.getD j (sampleTap 0)).missed = true := by
  intro l
  induction l with
  | nil => intro i c s j hj; exact absurd hj (Nat.not_lt_zero j)
  | cons obj rest ih =>
    intro i c s j hj hsort hhit hmiss htype hpast
    match j with
    | 0 =>
      rw [show ((obj :: rest).get ⟨0, hj⟩) = obj from rfl] at hhit hmiss htype hpast
      rw [taikoFrameAux]
      dsimp only
      rw [if_neg (by simp [hhit, hmiss]),
          if_neg (by
            rw [show TAIKO_HIT_X = (260 : ℚ) from rfl] at hpast ⊢
            push_neg
            linarith),
          if_pos ⟨hpast, hhit, hmiss, htype⟩]
      rfl
    | j + 1 =>
      generalize hR : taikoFrameAux env i c s (obj :: rest) = R
      rw [taikoFrameAux] at hR
      dsimp only at hR
      split at hR
      · rw [← hR]
        exact ih (i + 1) _ s j (Nat.lt_of_succ_lt_succ hj)
          (fun k hk hkj => hsort (k + 1) (Nat.succ_lt_succ hk) (Nat.succ_lt_succ hkj))
          hhit hmiss htype hpast
      · split at hR
        · rename_i hres hbrk
          exfalso
          have hs0 := hsort 0 (Nat.succ_pos _) (Nat.succ_pos _)
          rw [show ((obj :: rest).get ⟨0, Nat.succ_pos _⟩) = obj from rfl] at hs0
          have hmono : (obj.time - env.now) * env.speed
              ≤ (((obj :: rest).get ⟨j + 1, hj⟩).time - env.now) * env.speed :=
            mul_le_mul_of_nonneg_right (by linarith) hspeed
          rw [show TAIKO_HIT_X = (260 : ℚ) from rfl] at hbrk hpast
          linarith
        · split at hR
          · rw [← hR]
            exact ih (i + 1) c (updateScore s 0 HitKind.miss) j
              (Nat.lt_of_succ_lt_succ hj)
              (fun k hk hkj => hsort (k + 1) (Nat.succ_lt_succ hk) (Nat.succ_lt_succ hkj))
              hhit hmiss htype hpast
          · rw [← hR]
            exact ih (i + 1) c s j (Nat.lt_of_succ_lt_succ hj)
              (fun k hk hkj => hsort (k + 1) (Nat.succ_lt_succ hk) (Nat.succ_lt_succ hkj))
              hhit hmiss htype hpast

lemma maniaFrameAux_cursor_mono (env : ManiaFrameEnv) :
    ∀ (l : List HitObject) (i c : ℕ) (s : ScoreData),
      c ≤ (maniaFrameAux env i c s l).cursor := by
  intro l
  induction l with
  | nil => intro i c s; exact le_refl c
  | cons obj rest ih =>
    intro i c s
    rw [maniaFrameAux]
    dsimp only
    split
    · refine le_trans ?_ (ih (i + 1) (if i = c then c + 1 else c) s)
      split <;> omega
    · split
      · exact ih (i + 1) c s
      · split
        · exact le_refl c
        · split
          · exact ih (i + 1) c (updateScore s 0 HitKind.miss)
          · exact ih (i + 1) c s

lemma maniaFrameAux_cursor_frozen (env : ManiaFrameEnv) :
    ∀ (l : List HitObject) (i c : ℕ) (s : ScoreData),
      c < i → (maniaFrameAux env i c s l).cursor = c := by
  intro l
  induction l with
  | nil => intro i c s _; rfl
  | cons obj rest ih =>
    intro i c s hci
    rw [maniaFrameAux]
    dsimp only
    split
    · rw [if_neg (by omega)]
      exact ih (i + 1) c s (by omega)
    · split
      · exact ih (i + 1) c s (by omega)
      · split
        · rfl
        · split
          · exact ih (i + 1) c (updateScore s 0 HitKind.miss) (by omega)
          · exact ih (i + 1) c s (by omega)

lemma maniaFrameAux_advance (env : ManiaFrameEnv) :
    ∀ (l : List HitObject) (i : ℕ) (s : ScoreData) (j : ℕ),
      i ≤ j → j < (maniaFrameAux env i i s l).cursor →
      ∃ (hj : j - i < l.length), resolvedObj (l.get ⟨j - i, hj⟩) := by
  intro l
  induction l with
  | nil =>
    intro i s j hij hlt
    rw [maniaFrameAux] at hlt
    dsimp only at hlt
    exact absurd hlt (by omega)
  | cons obj rest ih =>
    intro i s j hij hlt
    rw [maniaFrameAux] at hlt
    dsimp only at hlt
    split at hlt
    · rename_i hadv
      rw [if_pos rfl] at hlt
      rcases Nat.eq_or_lt_of_le hij with heq | hgt
      · subst heq
        refine ⟨by simp, ?_⟩
        rw [show (⟨i - i, by simp⟩ : Fin (obj :: rest).length) = ⟨0, Nat.succ_pos _⟩
              from Fin.ext (Nat.sub_self i)]
        simpa [resolvedObj, Bool.or_eq_true] using hadv
      · rcases ih (i + 1) s j hgt hlt with ⟨hj, hcond⟩
        have hidx : j - i = (j - (i + 1)) + 1 := by omega
        refine ⟨by simp; omega, ?_⟩
        have hget : (obj :: rest).get ⟨j - i, by simp; omega⟩
            = rest.get ⟨j - (i + 1), hj⟩ := by
          rw [show (⟨j - i, by simp; omega⟩ : Fin (obj :: rest).length)
                = ⟨(j - (i + 1)) + 1, by simp [hj]⟩ from Fin.ext hidx]
          rfl
        rw [hget]
        exact hcond
    · split at hlt
      · dsimp only at hlt
        rw [maniaFrameAux_cursor_frozen env rest (i + 1) i _ (by omega)] at hlt
        exact absurd hlt (by omega)
      · split at hlt
        · dsimp only at hlt
          exact absurd hlt (by omega)
        · split at hlt
          · dsimp only at hlt
            rw [maniaFrameAux_cursor_frozen env rest (i + 1) i _ (by omega)] at hlt
            exact absurd hlt (by omega)
          · dsimp only at hlt
            rw [maniaFrameAux_cursor_frozen env rest (i + 1) i _ (by omega)] at hlt
            exact absurd hlt (by omega)

lemma maniaFrameAux_missmark (env : ManiaFrameEnv) (hspeed : 0 ≤ env.speed)
    (hheight : 0 ≤ env.height) :
    ∀ (l : List HitObject) (i c : ℕ) (s : ScoreData) (j : ℕ) (hj : j < l.length),
      (∀ (k : ℕ) (hk : k < l.length), k < j →
        (l.get ⟨k, hk⟩).time ≤ (l.get ⟨j, hj⟩).time) →
      (l.get ⟨j, hj⟩).hit = false → (l.get ⟨j, hj⟩).missed = false →
      ¬(maniaColumn (l.get ⟨j, hj⟩).x < 0 ∨ maniaColumn (l.get ⟨j, hj⟩).x > 3) →
      (env.height - 100) - ((l.get ⟨j, hj⟩).time - env.now) * env.speed
        > env.height + 50 →
      ((maniaFrameAux env i c s l).objs.getD j (sampleTap 0)).missed = true := by
  intro l
  induction l with
  | nil => intro i c s j hj; exact absurd hj (Nat.not_lt_zero j)
  | cons obj rest ih =>
    intro i c s j hj hsort hhit hmiss hcol hpast
    match j with
    | 0 =>
      rw [show ((obj :: rest).get ⟨0, hj⟩) = obj from rfl]
        at hhit hmiss hcol hpast
      rw [maniaFrameAux]
      dsimp only
      rw [if_neg (by simp [hhit, hmiss]), if_neg hcol,
          if_neg (by push_neg; linarith), if_pos ⟨hpast, hhit⟩]
      rfl
    | j + 1 =>
      generalize hR : maniaFrameAux env i c s (obj :: rest) = R
      rw [maniaFrameAux] at hR
      dsimp only at hR
      split at hR
      · rw [← hR]
        exact ih (i + 1) _ s j (Nat.lt_of_succ_lt_succ hj)
          (fun k hk hkj => hsort (k + 1) (Nat.succ_lt_succ hk) (Nat.succ_lt_succ hkj))
          hhit hmiss hcol hpast
      · split at hR
        · rw [← hR]
          exact ih (i + 1) c s j (Nat.lt_of_succ_lt_succ hj)
            (fun k hk hkj => hsort (k + 1) (Nat.succ_lt_succ hk) (Nat.succ_lt_succ hkj))
            hhit hmiss hcol hpast
        · split at hR
          · rename_i hres hcol0 hbrk
            exfalso
            have hs0 := hsort 0 (Nat.succ_pos _) (Nat.succ_pos _)
            rw [show ((obj :: rest).get ⟨0, Nat.succ_pos _⟩) = obj from rfl] at hs0
            have hmono : (obj.time - env.now) * env.speed
                ≤ (((obj :: rest).get ⟨j + 1, hj⟩).time - env.now) * env.speed :=
              mul_le_mul_of_nonneg_right (by linarith) hspeed
            linarith
          · split at hR
            · rw [← hR]
              exact ih (i + 1) c (updateScore s 0 HitKind.miss) j
                (Nat.lt_of_succ_lt_succ hj)
                (fun k hk hkj => hsort (k + 1) (Nat.succ_lt_succ hk) (Nat.succ_lt_succ hkj))
                hhit hmiss hcol hpast
            · rw [← hR]
              exact ih (i + 1) c s j (Nat.lt_of_succ_lt_succ hj)
                (fun k hk hkj => hsort (k + 1) (Nat.succ_lt_succ hk) (Nat.succ_lt_succ hkj))
                hhit hmiss hcol hpast

lemma get_drop_index {α : Type} (l : List α) (c j : ℕ) (hcj : c ≤ j)
    (hj : j < l.length) :
    ∃ (hm : j - c < (l.drop c).length), (l.drop c).get ⟨j - c, hm⟩ = l.get ⟨j, hj⟩ := by
  refine ⟨by simp [List.length_drop]; omega, ?_⟩
  simp only [List.get_eq_getElem, List.getElem_drop]
  congr 1
  omega

lemma get_drop_index' {α : Type} (l : List α) (c k : ℕ)
    (hk : k < (l.drop c).length) :
    ∃ (h2 : c + k < l.length), (l.drop c).get ⟨k, hk⟩ = l.get ⟨c + k, h2⟩ := by
  refine ⟨by simp only [List.length_drop] at hk; omega, ?_⟩
  simp only [List.get_eq_getElem, List.getElem_drop]

/-! ## Claim C4 — advance-cursor monotonicity and guarded advancement -/

/-- C4: in all three draw loops the advance cursor is monotonically
non-decreasing across a frame, and every index it advances past satisfies the
mode's resolved-or-expired condition at that exact position — the Standard
loop requires a Tap to be resolved or a Hold/Spin to be expired
(`stdAdvanceCond`), the Drum and Lane loops require the object to be resolved;
the cursor never skips an unresolved, unexpired object. -/
theorem C4_cursor_monotone :
    (∀ (env : StdFrameEnv) (st : StdFrameState),
        st.cursor ≤ (stdFrame env st).cursor
        ∧ ∀ (j : ℕ), st.cursor ≤ j → j < (stdFrame env st).cursor →
            ∃ (hj : j < st.objs.length), stdAdvanceCond env.now (st.objs.get ⟨j, hj⟩))
    ∧ (∀ (env : TaikoFrameEnv) (st : InputState),
        st.cursor ≤ (taikoFrame env st).cursor
        ∧ ∀ (j : ℕ), st.cursor ≤ j → j < (taikoFrame env st).cursor →
            ∃ (hj : j < st.objs.length), resolvedObj (st.objs.get ⟨j, hj⟩))
    ∧ (∀ (env : ManiaFrameEnv) (st : InputState),
        st.cursor ≤ (maniaFrame env st).cursor
        ∧ ∀ (j : ℕ), st.cursor ≤ j → j < (maniaFrame env st).cursor →
            ∃ (hj : j < st.objs.length), resolvedObj (st.objs.get ⟨j, hj⟩)) := by
  refine ⟨?_, ?_, ?_⟩
  · intro env st
    constructor
    · exact stdFrameAux_cursor_mono env (st.objs.drop st.cursor) st.cursor
        st.cursor st.spinner st.score true
    · intro j hcj hlt
      have hlt' : j < (stdFrameAux env st.cursor st.cursor st.spinner st.score
          true (st.objs.drop st.cursor)).cursor := hlt
      obtain ⟨hm, hcond⟩ := stdFrameAux_advance env (st.objs.drop st.cursor)
        st.cursor st.spinner st.score true j hcj hlt'
      have hj : j < st.objs.length := by
        simp only [List.length_drop] at hm
        omega
      obtain ⟨hm2, hget⟩ := get_drop_index st.objs st.cursor j hcj hj
      refine ⟨hj, ?_⟩
      rw [← hget]
      exact hcond
  · intro env st
    constructor
    · exact taikoFrameAux_cursor_mono env (st.objs.drop st.cursor) st.cursor
        st.cursor st.score
    · intro j hcj hlt
      have hlt' : j < (taikoFrameAux env st.cursor st.cursor st.score
          (st.objs.drop st.cursor)).cursor := hlt
      obtain ⟨hm, hcond⟩ := taikoFrameAux_advance env (st.objs.drop st.cursor)
        st.cursor st.score j hcj hlt'
      have hj : j < st.objs.length := by
        simp only [List.length_drop] at hm
        omega
      obtain ⟨hm2, hget⟩ := get_drop_index st.objs st.cursor j hcj hj
      refine ⟨hj, ?_⟩
      rw [← hget]
      exact hcond
  · intro env st
    constructor
    · exact maniaFrameAux_cursor_mono env (st.objs.drop st.cursor) st.cursor
        st.cursor st.score
    · intro j hcj hlt
      have hlt' : j < (maniaFrameAux env st.cursor st.cursor st.score
          (st.objs.drop st.cursor)).cursor := hlt
      obtain ⟨hm, hcond⟩ := maniaFrameAux_advance env (st.objs.drop st.cursor)
        st.cursor st.score j hcj hlt'
      have hj : j < st.objs.length := by
        simp only [List.length_drop] at hm
        omega
      obtain ⟨hm2, hget⟩ := get_drop_index st.objs st.cursor j hcj hj
      refine ⟨hj, ?_⟩
      rw [← hget]
      exact hcond

/-- C4 witness: a Taiko frame whose first object is already resolved advances
the cursor from 0 to beyond 0, and the advanced-past object is resolved. -/
theorem C4_witness :
    (0 : ℕ) ≤ (taikoFrame ⟨1000, 1, 800⟩ ⟨[resolvedTap 0], 0, initialScore⟩).cursor
    ∧ ∃ (hj : 0 < ([resolvedTap 0] : List HitObject).length),
        resolvedObj (([resolvedTap 0] : List HitObject).get ⟨0, hj⟩) :=
  ⟨(C4_cursor_monotone.2.1 ⟨1000, 1, 800⟩ ⟨[resolvedTap 0], 0, initialScore⟩).1,
   (C4_cursor_monotone.2.1 ⟨1000, 1, 800⟩ ⟨[resolvedTap 0], 0, initialScore⟩).2 0
     (le_refl 0)
     (by norm_num [taikoFrame, taikoFrameAux, resolvedTap, sampleTap])⟩

/-! ## Claim C10 — session-wide spinner rotation accumulator -/

/-- C10: the Standard-mode spinner accumulator `totalRotation` never decreases
across a frame (it is never reset when a spinner resolves or a new spinner
begins), and consequently once it exceeds 8π, any unresolved, unspun Spin
object whose active range contains `now` resolves (hit and wasSpun set) on the
first frame in which the pointer is held. -/
theorem C10_spinner_rotation_persistence :
    (∀ (env : StdFrameEnv) (st : StdFrameState),
        st.spinner.totalRotation ≤ (stdFrame env st).spinner.totalRotation)
    ∧ (∀ (env : StdFrameEnv) (st : StdFrameState) (j : ℕ) (hj : j < st.objs.length),
        0 ≤ env.approachTime → env.isDown = true →
        st.cursor ≤ j →
        (∀ (k : ℕ) (hk : k < st.objs.length), st.cursor ≤ k → k < j →
          (st.objs.get ⟨k, hk⟩).time ≤ (st.objs.get ⟨j, hj⟩).time) →
        (st.objs.get ⟨j, hj⟩).type = HitType.spinner →
        (st.objs.get ⟨j, hj⟩).hit = false → (st.objs.get ⟨j, hj⟩).missed = false →
        (st.objs.get ⟨j, hj⟩).wasSpun = false →
        (st.objs.get ⟨j, hj⟩).time ≤ env.now →
        env.now ≤ (st.objs.get ⟨j, hj⟩).endTime →
        PI * 8 < st.spinner.totalRotation →
        ((stdFrame env st).objs.getD j (sampleTap 0)).hit = true
        ∧ ((stdFrame env st).objs.getD j (sampleTap 0)).wasSpun = true) := by
  constructor
  · intro env st
    exact stdFrameAux_rotation env (st.objs.drop st.cursor) st.cursor st.cursor
      st.spinner st.score true
  · intro env st j hj hAT hdown hcj hsort htype hhit hmiss hspun ht1 ht2 hrot
    have hc : st.cursor ≤ st.objs.length := le_trans hcj (le_of_lt hj)
    obtain ⟨hm, hget⟩ := get_drop_index st.objs st.cursor j hcj hj
    have haux := stdFrameAux_spin env hAT hdown (st.objs.drop st.cursor)
      st.cursor st.cursor st.spinner st.score true (j - st.cursor) hm
      (by
        intro k hk hkj
        obtain ⟨hkl, hgk⟩ := get_drop_index' st.objs st.cursor k hk
        rw [hgk, hget]
        exact hsort (st.cursor + k) hkl (by omega) (by
          simp only [List.length_drop] at hm
          omega))
      (by rw [hget]; exact htype) (by rw [hget]; exact hhit)
      (by rw [hget]; exact hmiss) (by rw [hget]; exact hspun)
      (by rw [hget]; exact ht1) (by rw [hget]; exact ht2) hrot
    have hsplice : (stdFrame env st).objs.getD j (sampleTap 0)
        = (stdFrameAux env st.cursor st.cursor st.spinner st.score true
            (st.objs.drop st.cursor)).objs.getD (j - st.cursor) (sampleTap 0) := by
      exact getD_take_append_right st.objs _ st.cursor j (sampleTap 0) hc hcj
    rw [hsplice]
    exact haux

/-- C10 witness: with 26 > 8π accumulated, a held frame at `now = 500` inside
a `[0, 1000]` spinner resolves it immediately. -/
theorem C10_witness :
    (⟨0, 0, 26, 0, 0⟩ : SpinnerState).totalRotation
        ≤ (stdFrame { sampleStdFrameEnv 500 with isDown := true }
            ⟨[sampleSpinner 0 1000], 0, ⟨0, 0, 26, 0, 0⟩, initialScore⟩).spinner.totalRotation
    ∧ ((stdFrame { sampleStdFrameEnv 500 with isDown := true }
          ⟨[sampleSpinner 0 1000], 0, ⟨0, 0, 26, 0, 0⟩, initialScore⟩).objs.getD 0
            (sampleTap 0)).hit = true
    ∧ ((stdFrame { sampleStdFrameEnv 500 with isDown := true }
          ⟨[sampleSpinner 0 1000], 0, ⟨0, 0, 26, 0, 0⟩, initialScore⟩).objs.getD 0
            (sampleTap 0)).wasSpun = true := by
  refine ⟨C10_spinner_rotation_persistence.1 _ _, ?_⟩
  have h := C10_spinner_rotation_persistence.2
    { sampleStdFrameEnv 500 with isDown := true }
    ⟨[sampleSpinner 0 1000], 0, ⟨0, 0, 26, 0, 0⟩, initialScore⟩
    0 (Nat.succ_pos _)
    (by norm_num [sampleStdFrameEnv])
    rfl
    (le_refl 0)
    (fun k hk _ hk0 => absurd hk0 (Nat.not_lt_zero k))
    rfl rfl rfl rfl
    (by norm_num [sampleSpinner, sampleStdFrameEnv])
    (by norm_num [sampleSpinner, sampleStdFrameEnv])
    (by norm_num [PI])
  exact h

/-! ## Claim C5 — per-frame miss detection (corrected) -/

/-- C5 (amended): Standard-mode per-frame miss detection marks every
unresolved Tap (circle) object from the cursor forward whose scheduled time
has been passed by more than the widest window (150 ms) as missed, but a
Hold/Spin (non-circle) object's missed flag is never changed by the Standard
frame; the Drum frame misses unresolved Taps once their scroll position is
more than 100 px past the hit line, and the Lane frame misses any-kind
unresolved objects in valid lanes once past the bottom of the screen. -/
theorem C5_miss_detection_amended :
    (∀ (env : StdFrameEnv) (st : StdFrameState) (j : ℕ) (hj : j < st.objs.length),
        0 ≤ env.approachTime → st.cursor ≤ j →
        (∀ (k : ℕ) (hk : k < st.objs.length), st.cursor ≤ k → k < j →
          (st.objs.get ⟨k, hk⟩).time ≤ (st.objs.get ⟨j, hj⟩).time) →
        (st.objs.get ⟨j, hj⟩).hit = false → (st.objs.get ⟨j, hj⟩).missed = false →
        (st.objs.get ⟨j, hj⟩).type = HitType.circle →
        (st.objs.get ⟨j, hj⟩).time - env.now < -HIT_WINDOW_50 →
        ((stdFrame env st).objs.getD j (sampleTap 0)).missed = true)
    ∧ (∀ (env : StdFrameEnv) (st : StdFrameState) (j : ℕ) (d : HitObject),
        st.cursor ≤ st.objs.length →
        (st.objs.getD j d).type ≠ HitType.circle →
        ((stdFrame env st).objs.getD j d).missed = (st.objs.getD j d).missed)
    ∧ (∀ (env : TaikoFrameEnv) (st : InputState) (j : ℕ) (hj : j < st.objs.length),
        0 ≤ env.speed → 60 ≤ env.width → st.cursor ≤ j →
        (∀ (k : ℕ) (hk : k < st.objs.length), st.cursor ≤ k → k < j →
          (st.objs.get ⟨k, hk⟩).time ≤ (st.objs.get ⟨j, hj⟩).time) →
        (st.objs.get ⟨j, hj⟩).hit = false → (st.objs.get ⟨j, hj⟩).missed = false →
        (st.objs.get ⟨j, hj⟩).type = HitType.circle →
        TAIKO_HIT_X + ((st.objs.get ⟨j, hj⟩).time - env.now) * env.speed
          < TAIKO_HIT_X - 100 →
        ((taikoFrame env st).objs.getD j (sampleTap 0)).missed = true)
    ∧ (∀ (env : ManiaFrameEnv) (st : InputState) (j : ℕ) (hj : j < st.objs.length),
        0 ≤ env.speed → 0 ≤ env.height → st.cursor ≤ j →
        (∀ (k : ℕ) (hk : k < st.objs.length), st.cursor ≤ k → k < j →
          (st.objs.get ⟨k, hk⟩).time ≤ (st.objs.get ⟨j, hj⟩).time) →
        (st.objs.get ⟨j, hj⟩).hit = false → (st.objs.get ⟨j, hj⟩).missed = false →
        ¬(maniaColumn (st.objs.get ⟨j, hj⟩).x < 0
            ∨ maniaColumn (st.objs.get ⟨j, hj⟩).x > 3) →
        (env.height - 100) - ((st.objs.get ⟨j, hj⟩).time - env.now) * env.speed
          > env.height + 50 →
        ((maniaFrame env st).objs.getD j (sampleTap 0)).missed = true) := by
  refine ⟨?_, ?_, ?_, ?_⟩
  · intro env st j hj hAT hcj hsort hhit hmiss htype hlate
    have hc : st.cursor ≤ st.objs.length := le_trans hcj (le_of_lt hj)
    obtain ⟨hm, hget⟩ := get_drop_index st.objs st.cursor j hcj hj
    have haux := stdFrameAux_missmark env hAT (st.objs.drop st.cursor)
      st.cursor st.cursor st.spinner st.score true (j - st.cursor) hm
      (by
        intro k hk hkj
        obtain ⟨hkl, hgk⟩ := get_drop_index' st.objs st.cursor k hk
        rw [hgk, hget]
        exact hsort (st.cursor + k) hkl (by omega) (by
          simp only [List.length_drop] at hm
          omega))
      (by rw [hget]; exact hhit) (by rw [hget]; exact hmiss)
      (by rw [hget]; exact htype) (by rw [hget]; exact hlate)
    have hsplice : (stdFrame env st).objs.getD j (sampleTap 0)
        = (stdFrameAux env st.cursor st.cursor st.spinner st.score true
            (st.objs.drop st.cursor)).objs.getD (j - st.cursor) (sampleTap 0) :=
      getD_take_append_right st.objs _ st.cursor j (sampleTap 0) hc hcj
    rw [hsplice]
    exact haux
  · intro env st j d hc htype
    by_cases hcj : st.cursor ≤ j
    · have hsplice : (stdFrame env st).objs.getD j d
          = (stdFrameAux env st.cursor st.cursor st.spinner st.score true
              (st.objs.drop st.cursor)).objs.getD (j - st.cursor) d :=
        getD_take_append_right st.objs _ st.cursor j d hc hcj
      rw [hsplice]
      have := stdFrameAux_missed_preserved env (st.objs.drop st.cursor)
        st.cursor st.cursor st.spinner st.score true (j - st.cursor) d
        (by rw [getD_drop, show st.cursor + (j - st.cursor) = j from by omega]
            exact htype)
      rw [this, getD_drop, show st.cursor + (j - st.cursor) = j from by omega]
    · have hsplice : (stdFrame env st).objs.getD j d = st.objs.getD j d :=
        getD_take_append_left st.objs _ st.cursor j d hc (by omega)
      rw [hsplice]
  · intro env st j hj hspeed hwidth hcj hsort hhit hmiss htype hpast
    have hc : st.cursor ≤ st.objs.length := le_trans hcj (le_of_lt hj)
    obtain ⟨hm, hget⟩ := get_drop_index st.objs st.cursor j hcj hj
    have haux := taikoFrameAux_missmark env hspeed hwidth (st.objs.drop st.cursor)
      st.cursor st.cursor st.score (j - st.cursor) hm
      (by
        intro k hk hkj
        obtain ⟨hkl, hgk⟩ := get_drop_index' st.objs st.cursor k hk
        rw [hgk, hget]
        exact hsort (st.cursor + k) hkl (by omega) (by
          simp only [List.length_drop] at hm
          omega))
      (by rw [hget]; exact hhit) (by rw [hget]; exact hmiss)
      (by rw [hget]; exact htype) (by rw [hget]; exact hpast)
    have hsplice : (taikoFrame env st).objs.getD j (sampleTap 0)
        = (taikoFrameAux env st.cursor st.cursor st.score
            (st.objs.drop st.cursor)).objs.getD (j - st.cursor) (sampleTap 0) :=
      getD_take_append_right st.objs _ st.cursor j (sampleTap 0) hc hcj
    rw [hsplice]
    exact haux
  · intro env st j hj hspeed hheight hcj hsort hhit hmiss hcol hpast
    have hc : st.cursor ≤ st.objs.length := le_trans hcj (le_of_lt hj)
    obtain ⟨hm, hget⟩ := get_drop_index st.objs st.cursor j hcj hj
    have haux := maniaFrameAux_missmark env hspeed hheight (st.objs.drop st.cursor)
      st.cursor st.cursor st.score (j - st.cursor) hm
      (by
        intro k hk hkj
        obtain ⟨hkl, hgk⟩ := get_drop_index' st.objs st.cursor k hk
        rw [hgk, hget]
        exact hsort (st.cursor + k) hkl (by omega) (by
          simp only [List.length_drop] at hm
          omega))
      (by rw [hget]; exact hhit) (by rw [hget]; exact hmiss)
      (by rw [hget]; exact hcol) (by rw [hget]; exact hpast)
    have hsplice : (maniaFrame env st).objs.getD j (sampleTap 0)
        = (maniaFrameAux env st.cursor st.cursor st.score
            (st.objs.drop st.cursor)).objs.getD (j - st.cursor) (sampleTap 0) :=
      getD_take_append_right st.objs _ st.cursor j (sampleTap 0) hc hcj
    rw [hsplice]
    exact haux

/-- C5 witness: a Standard frame at `now = 200` marks an unresolved Tap at
time 0 missed, and leaves a degenerate Hold's missed flag unchanged. -/
theorem C5_witness :
    ((stdFrame (sampleStdFrameEnv 200)
        ⟨[sampleTap 0], 0, initialSpinnerState, initialScore⟩).objs.getD 0
          (sampleTap 0)).missed = true
    ∧ ((stdFrame (sampleStdFrameEnv 200)
        ⟨[sampleSlider 0 0], 0, initialSpinnerState, initialScore⟩).objs.getD 0
          (sampleTap 0)).missed
      = (([sampleSlider 0 0] : List HitObject).getD 0 (sampleTap 0)).missed := by
  constructor
  · exact C5_miss_detection_amended.1 (sampleStdFrameEnv 200)
      ⟨[sampleTap 0], 0, initialSpinnerState, initialScore⟩ 0 (Nat.succ_pos _)
      (by norm_num [sampleStdFrameEnv]) (le_refl 0)
      (fun k hk _ hk0 => absurd hk0 (Nat.not_lt_zero k))
      rfl rfl rfl
      (by norm_num [sampleTap, sampleStdFrameEnv, HIT_WINDOW_50])
  · exact C5_miss_detection_amended.2.1 (sampleStdFrameEnv 200)
      ⟨[sampleSlider 0 0], 0, initialSpinnerState, initialScore⟩ 0 (sampleTap 0)
      (Nat.zero_le _)
      (by norm_num [sampleSlider, List.getD]; decide)

/-! ## Claim C6 — scan bounds (corrected) -/

/-- C6 (amended): only the Standard discrete-input scan is capped at 10
objects from the advance cursor (everything at index cursor+10 or beyond is
untouched); all three scans stop early at the first unresolved object whose
scheduled time is beyond the mode's hittable bound (the approach window for
Standard, the widest window for Drum, and the widest window among same-lane
objects for Lane), leaving everything from that object on untouched — but the
Drum and Lane scans have no 10-object cap. -/
theorem C6_scan_bounds_amended :
    (∀ (env : StdEnv) (st : InputState) (cx cy : ℚ),
        st.cursor ≤ st.objs.length →
        (handleStandardInput env st cx cy).objs.drop (st.cursor + 10)
          = st.objs.drop (st.cursor + 10))
    ∧ (∀ (env : StdEnv) (st : InputState) (cx cy : ℚ) (k : ℕ)
        (hk : k < st.objs.length),
        st.cursor ≤ k →
        (st.objs.get ⟨k, hk⟩).hit = false → (st.objs.get ⟨k, hk⟩).missed = false →
        env.now < (st.objs.get ⟨k, hk⟩).time - env.approachTime →
        (handleStandardInput env st cx cy).objs.drop k = st.objs.drop k)
    ∧ (∀ (now : ℚ) (st : InputState) (key : TaikoKey) (k : ℕ)
        (hk : k < st.objs.length),
        st.cursor ≤ k →
        (st.objs.get ⟨k, hk⟩).hit = false → (st.objs.get ⟨k, hk⟩).missed = false →
        (st.objs.get ⟨k, hk⟩).time - now > HIT_WINDOW_50 →
        (handleTaikoInput now st key).objs.drop k = st.objs.drop k)
    ∧ (∀ (now : ℚ) (st : InputState) (c : ℤ) (k : ℕ) (hk : k < st.objs.length),
        st.cursor ≤ k →
        (st.objs.get ⟨k, hk⟩).hit = false → (st.objs.get ⟨k, hk⟩).missed = false →
        maniaColumn (st.objs.get ⟨k, hk⟩).x = c →
        (st.objs.get ⟨k, hk⟩).time - now > HIT_WINDOW_50 →
        (handleManiaInput now st c true).objs.drop k = st.objs.drop k) := by
  refine ⟨?_, ?_, ?_, ?_⟩
  · intro env st cx cy hc
    have hsplice : (handleStandardInput env st cx cy).objs.drop (st.cursor + 10)
        = (stdInputAux env cx cy st.score 10 (st.objs.drop st.cursor)).objs.drop
            (st.cursor + 10 - st.cursor) :=
      drop_take_append st.objs _ st.cursor (st.cursor + 10) hc (by omega)
    rw [hsplice, show st.cursor + 10 - st.cursor = 10 from by omega,
        stdInputAux_drop_fuel, List.drop_drop]
  · intro env st cx cy k hk hcj hhit hmiss hfar
    have hc : st.cursor ≤ st.objs.length := le_trans hcj (le_of_lt hk)
    obtain ⟨hm, hget⟩ := get_drop_index st.objs st.cursor k hcj hk
    have haux := stdInputAux_stop env cx cy st.score 10 (st.objs.drop st.cursor)
      (k - st.cursor) hm (by rw [hget]; exact hhit) (by rw [hget]; exact hmiss)
      (by rw [hget]; exact hfar)
    have hsplice : (handleStandardInput env st cx cy).objs.drop k
        = (stdInputAux env cx cy st.score 10 (st.objs.drop st.cursor)).objs.drop
            (k - st.cursor) :=
      drop_take_append st.objs _ st.cursor k hc hcj
    rw [hsplice, haux, List.drop_drop]
    congr 1
    omega
  · intro now st key k hk hcj hhit hmiss hfar
    have hc : st.cursor ≤ st.objs.length := le_trans hcj (le_of_lt hk)
    obtain ⟨hm, hget⟩ := get_drop_index st.objs st.cursor k hcj hk
    have haux := taikoInputAux_stop now key (st.objs.drop st.cursor) st.score []
      (k - st.cursor) hm (by rw [hget]; exact hhit) (by rw [hget]; exact hmiss)
      (by rw [hget]; exact hfar)
    have hsplice : (handleTaikoInput now st key).objs.drop k
        = (taikoInputAux now key st.score [] (st.objs.drop st.cursor)).objs.drop
            (k - st.cursor) :=
      drop_take_append st.objs _ st.cursor k hc hcj
    rw [hsplice, haux, List.drop_drop]
    congr 1
    omega
  · intro now st c k hk hcj hhit hmiss hcol hfar
    have hc : st.cursor ≤ st.objs.length := le_trans hcj (le_of_lt hk)
    obtain ⟨hm, hget⟩ := get_drop_index st.objs st.cursor k hcj hk
    have haux := maniaInputAux_stop now c (st.objs.drop st.cursor) st.score
      (k - st.cursor) hm (by rw [hget]; exact hhit) (by rw [hget]; exact hmiss)
      (by rw [hget]; exact hcol) (by rw [hget]; exact hfar)
    have hsplice : (handleManiaInput now st c true).objs.drop k
        = (maniaInputAux now c st.score (st.objs.drop st.cursor)).objs.drop
            (k - st.cursor) :=
      drop_take_append st.objs _ st.cursor k hc hcj
    rw [hsplice, haux, List.drop_drop]
    congr 1
    omega

/-- C6 witness: the Standard cap on a one-object chart, and a Drum early stop
at an unresolved object 9000 ms in the future. -/
theorem C6_witness :
    (handleStandardInput (sampleStdEnv 1000) ⟨[sampleTap 0], 0, initialScore⟩
        100 100).objs.drop 10 = ([sampleTap 0] : List HitObject).drop 10
    ∧ (handleTaikoInput 1000 ⟨[sampleTap 10000], 0, initialScore⟩
        TaikoKey.inner).objs.drop 0 = ([sampleTap 10000] : List HitObject).drop 0 :=
  ⟨C6_scan_bounds_amended.1 (sampleStdEnv 1000) ⟨[sampleTap 0], 0, initialScore⟩
      100 100 (by norm_num),
   C6_scan_bounds_amended.2.2.1 1000 ⟨[sampleTap 10000], 0, initialScore⟩
      TaikoKey.inner 0 (Nat.succ_pos _) (le_refl 0) rfl rfl
      (by norm_num [sampleTap, HIT_WINDOW_50])⟩

lemma take_append_set_drop {α : Type} (l : List α) (c m : ℕ) (v : α)
    (hc : c ≤ l.length) :
    l.take c ++ (l.drop c).set m v = l.set (c + m) v := by
  conv_rhs => rw [← List.take_append_drop c l]
  rw [List.set_append_right _ _ (by simp [Nat.min_eq_left hc])]
  congr 2
  simp [Nat.min_eq_left hc]

/-! ## Handler-level characterizations -/

lemma handleStandardInput_char (env : StdEnv) (st : InputState) (cx cy : ℚ)
    (hc : st.cursor ≤ st.objs.length) :
    ((handleStandardInput env st cx cy).objs = st.objs
      ∧ (handleStandardInput env st cx cy).events = [])
    ∨ ∃ (j : ℕ) (hj : j < st.objs.length),
        st.cursor ≤ j
        ∧ (st.objs.get ⟨j, hj⟩).hit = false ∧ (st.objs.get ⟨j, hj⟩).missed = false
        ∧ |env.now - (st.objs.get ⟨j, hj⟩).time| ≤ HIT_WINDOW_50
        ∧ (handleStandardInput env st cx cy).objs
            = st.objs.set j { st.objs.get ⟨j, hj⟩ with hit := true }
        ∧ (handleStandardInput env st cx cy).events
            = [specTierSelect |env.now - (st.objs.get ⟨j, hj⟩).time|] := by
  have hobjs : (handleStandardInput env st cx cy).objs
      = st.objs.take st.cursor
        ++ (stdInputAux env cx cy st.score 10 (st.objs.drop st.cursor)).objs := rfl
  have hev : (handleStandardInput env st cx cy).events
      = (stdInputAux env cx cy st.score 10 (st.objs.drop st.cursor)).events := rfl
  rcases stdInputAux_char env cx cy 10 (st.objs.drop st.cursor) st.score with
    heq | ⟨j0, hj0, hh, hm, hd, heq⟩
  · left
    rw [heq] at hobjs hev
    exact ⟨by rw [hobjs]; exact List.take_append_drop _ _, hev⟩
  · right
    obtain ⟨hj, hget⟩ := get_drop_index' st.objs st.cursor j0 hj0
    refine ⟨st.cursor + j0, hj, by omega, ?_, ?_, ?_, ?_, ?_⟩
    · rw [← hget]; exact hh
    · rw [← hget]; exact hm
    · rw [← hget]; exact hd
    · rw [hobjs, heq, hget, take_append_set_drop st.objs st.cursor j0 _ hc]
    · rw [hev, heq, hget]

lemma handleManiaInput_char (now : ℚ) (st : InputState) (c : ℤ)
    (hc : st.cursor ≤ st.objs.length) :
    ((handleManiaInput now st c true).objs = st.objs
      ∧ (handleManiaInput now st c true).events = [])
    ∨ ∃ (j : ℕ) (hj : j < st.objs.length),
        st.cursor ≤ j
        ∧ maniaCandidate now c (st.objs.get ⟨j, hj⟩)
        ∧ (∀ (k : ℕ) (hk : k < st.objs.length), st.cursor ≤ k → k < j →
            ¬maniaCandidate now c (st.objs.get ⟨k, hk⟩))
        ∧ (handleManiaInput now st c true).objs
            = st.objs.set j { st.objs.get ⟨j, hj⟩ with hit := true }
        ∧ (handleManiaInput now st c true).events
            = [specTierSelect |now - (st.objs.get ⟨j, hj⟩).time|] := by
  have hobjs : (handleManiaInput now st c true).objs
      = st.objs.take st.cursor
        ++ (maniaInputAux now c st.score (st.objs.drop st.cursor)).objs := rfl
  have hev : (handleManiaInput now st c true).events
      = (maniaInputAux now c st.score (st.objs.drop st.cursor)).events := rfl
  rcases maniaInputAux_char now c (st.objs.drop st.cursor) st.score with
    heq | ⟨j0, hj0, hcand, hfirst, heq⟩
  · left
    rw [heq] at hobjs hev
    exact ⟨by rw [hobjs]; exact List.take_append_drop _ _, hev⟩
  · right
    obtain ⟨hj, hget⟩ := get_drop_index' st.objs st.cursor j0 hj0
    refine ⟨st.cursor + j0, hj, by omega, ?_, ?_, ?_, ?_⟩
    · rw [← hget]; exact hcand
    · intro k hk hck hkj
      obtain ⟨hm2, hgetk⟩ := get_drop_index st.objs st.cursor k hck hk
      rw [← hgetk]
      exact hfirst (k - st.cursor) (by omega) (by omega)
    · rw [hobjs, heq, hget, take_append_set_drop st.objs st.cursor j0 _ hc]
    · rw [hev, heq, hget]

lemma handleTaikoInput_char (now : ℚ) (st : InputState) (key : TaikoKey)
    (hc : st.cursor ≤ st.objs.length) :
    (∀ (j : ℕ) (d : HitObject),
        ((handleTaikoInput now st key).objs.getD j d).hit = (st.objs.getD j d).hit)
    ∨ ∃ (j : ℕ) (hj : j < st.objs.length),
        st.cursor ≤ j
        ∧ (st.objs.get ⟨j, hj⟩).hit = false
        ∧ |now - (st.objs.get ⟨j, hj⟩).time| ≤ HIT_WINDOW_50
        ∧ (handleTaikoInput now st key).events.getLast?
            = some (drumTierSelect |now - (st.objs.get ⟨j, hj⟩).time|)
        ∧ ((handleTaikoInput now st key).objs.getD j (sampleTap 0)).hit = true
        ∧ ∀ (k : ℕ) (d : HitObject), k ≠ j →
            ((handleTaikoInput now st key).objs.getD k d).hit
              = (st.objs.getD k d).hit := by
  have hev : (handleTaikoInput now st key).events
      = (taikoInputAux now key st.score [] (st.objs.drop st.cursor)).events := rfl
  have hgetDsplit : ∀ (k : ℕ) (d : HitObject),
      (handleTaikoInput now st key).objs.getD k d
        = if k < st.cursor then st.objs.getD k d
          else (taikoInputAux now key st.score [] (st.objs.drop st.cursor)).objs.getD
                 (k - st.cursor) d := by
    intro k d
    split
    · exact getD_take_append_left st.objs _ st.cursor k d hc (by omega)
    · exact getD_take_append_right st.objs _ st.cursor k d hc (by omega)
  rcases taikoInputAux_hit_char now key (st.objs.drop st.cursor) st.score [] with
    h | ⟨j0, hj0, hh, hd, hlast, hhit0, hothers⟩
  · left
    intro j d
    rw [hgetDsplit j d]
    split
    · rfl
    · rw [h (j - st.cursor) d, getD_drop,
        show st.cursor + (j - st.cursor) = j from by omega]
  · right
    obtain ⟨hj, hget⟩ := get_drop_index' st.objs st.cursor j0 hj0
    refine ⟨st.cursor + j0, hj, by omega, ?_, ?_, ?_, ?_, ?_⟩
    · rw [← hget]; exact hh
    · rw [← hget]; exact hd
    · rw [hev, ← hget]; exact hlast
    · rw [hgetDsplit, if_neg (by omega), show st.cursor + j0 - st.cursor = j0 from by omega]
      exact hhit0
    · intro k d hk
      rw [hgetDsplit k d]
      split
      · rfl
      · rw [hothers (k - st.cursor) d (by omega), getD_drop,
          show st.cursor + (k - st.cursor) = k from by omega]

/-! ## Claim C1 (amended) — judgement-tier selection -/

/-- C1: tier selection. `specTierSelect` (the shared window table) maps
`d ≤ 50 → 300`, `50 < d ≤ 100 → 100` and `100 < d → 50`; the Drum table
`drumTierSelect` agrees on the first two bands but yields a full-value 300 in
the `100 < d` band. Every resolving Standard or Lane press emits exactly the
`specTierSelect` judgement of its `|now − time|`, and every Drum press that
flips an object to hit emits the `drumTierSelect` judgement of its delta as
the last event of the press. -/
theorem C1_tier_selection_amended :
    (∀ (d : ℚ),
      (d ≤ HIT_WINDOW_300 → specTierSelect d = (300, HitKind.h300))
      ∧ (HIT_WINDOW_300 < d → d ≤ HIT_WINDOW_100 →
          specTierSelect d = (100, HitKind.h100))
      ∧ (HIT_WINDOW_100 < d → specTierSelect d = (50, HitKind.h50)))
    ∧ (∀ (d : ℚ),
      (d ≤ HIT_WINDOW_100 → drumTierSelect d = specTierSelect d)
      ∧ (HIT_WINDOW_100 < d → drumTierSelect d = (300, HitKind.h300)))
    ∧ (∀ (env : StdEnv) (st : InputState) (cx cy : ℚ),
        st.cursor ≤ st.objs.length →
        (handleStandardInput env st cx cy).events ≠ [] →
        ∃ (j : ℕ) (hj : j < st.objs.length),
          |env.now - (st.objs.get ⟨j, hj⟩).time| ≤ HIT_WINDOW_50
          ∧ (handleStandardInput env st cx cy).events
              = [specTierSelect |env.now - (st.objs.get ⟨j, hj⟩).time|])
    ∧ (∀ (now : ℚ) (st : InputState) (c : ℤ),
        st.cursor ≤ st.objs.length →
        (handleManiaInput now st c true).events ≠ [] →
        ∃ (j : ℕ) (hj : j < st.objs.length),
          |now - (st.objs.get ⟨j, hj⟩).time| ≤ HIT_WINDOW_50
          ∧ (handleManiaInput now st c true).events
              = [specTierSelect |now - (st.objs.get ⟨j, hj⟩).time|])
    ∧ (∀ (now : ℚ) (st : InputState) (key : TaikoKey) (j : ℕ)
        (hj : j < st.objs.length) (d0 : HitObject),
        st.cursor ≤ st.objs.length →
        (st.objs.get ⟨j, hj⟩).hit = false →
        ((handleTaikoInput now st key).objs.getD j d0).hit = true →
        |now - (st.objs.get ⟨j, hj⟩).time| ≤ HIT_WINDOW_50
        ∧ (handleTaikoInput now st key).events.getLast?
            = some (drumTierSelect |now - (st.objs.get ⟨j, hj⟩).time|)) := by
  refine ⟨?_, ?_, ?_, ?_, ?_⟩
  · intro d
    refine ⟨?_, ?_, ?_⟩
    · intro h; rw [specTierSelect, if_pos h]
    · intro h1 h2
      rw [specTierSelect, if_neg (not_le.mpr h1), if_pos h2]
    · intro h1
      have h3 : HIT_WINDOW_300 < d :=
        lt_trans (by norm_num [HIT_WINDOW_300, HIT_WINDOW_100]) h1
      rw [specTierSelect, if_neg (not_le.mpr h3), if_neg (not_le.mpr h1)]
  · intro d
    constructor
    · intro h
      by_cases h3 : d ≤ HIT_WINDOW_300
      · simp [drumTierSelect, specTierSelect, h3]
      · simp [drumTierSelect, specTierSelect, h3, h]
    · intro h1
      have h3 : HIT_WINDOW_300 < d :=
        lt_trans (by norm_num [HIT_WINDOW_300, HIT_WINDOW_100]) h1
      rw [drumTierSelect, if_neg (not_le.mpr h3), if_neg (not_le.mpr h1)]
  · intro env st cx cy hc hne
    rcases handleStandardInput_char env st cx cy hc with
      ⟨_, hev⟩ | ⟨j, hj, _, _, _, hd, _, hev⟩
    · exact absurd hev hne
    · exact ⟨j, hj, hd, hev⟩
  · intro now st c hc hne
    rcases handleManiaInput_char now st c hc with
      ⟨_, hev⟩ | ⟨j, hj, _, hcand, _, _, hev⟩
    · exact absurd hev hne
    · exact ⟨j, hj, hcand.2.2.2, hev⟩
  · intro now st key j hj d0 hc hfalse htrue
    rcases handleTaikoInput_char now st key hc with
      h | ⟨j', hj', _, hh', hd', hlast', _, hothers'⟩
    · rw [h j d0, getD_eq_get st.objs j d0 hj, hfalse] at htrue
      exact absurd htrue (by decide)
    · by_cases hjj : j = j'
      · subst hjj
        exact ⟨hd', hlast'⟩
      · rw [hothers' j d0 hjj, getD_eq_get st.objs j d0 hj, hfalse] at htrue
        exact absurd htrue (by decide)

/-- C1 witness: the tables at `d = 120` (`specTierSelect` gives 50, Drum gives
a full 300), and the Standard conjunct discharged on a press exactly on time,
whose single event is the `specTierSelect` judgement. -/
theorem C1_witness :
    specTierSelect 120 = (50, HitKind.h50)
    ∧ drumTierSelect 120 = (300, HitKind.h300)
    ∧ ∃ (j : ℕ) (hj : j < ([sampleTap 1000] : List HitObject).length),
        |(sampleStdEnv 1000).now
            - (([sampleTap 1000] : List HitObject).get ⟨j, hj⟩).time| ≤ HIT_WINDOW_50
        ∧ (handleStandardInput (sampleStdEnv 1000)
              ⟨[sampleTap 1000], 0, initialScore⟩ 100 100).events
            = [specTierSelect
                |(sampleStdEnv 1000).now
                  - (([sampleTap 1000] : List HitObject).get ⟨j, hj⟩).time|] :=
  ⟨(C1_tier_selection_amended.1 120).2.2 (by norm_num [HIT_WINDOW_100]),
   (C1_tier_selection_amended.2.1 120).2 (by norm_num [HIT_WINDOW_100]),
   C1_tier_selection_amended.2.2.1 (sampleStdEnv 1000)
     ⟨[sampleTap 1000], 0, initialScore⟩ 100 100 (Nat.zero_le _)
     (by norm_num +decide [handleStandardInput, stdInputAux, sampleStdEnv, sampleTap,
        initialScore, updateScore, distWithin,
        HIT_WINDOW_50, HIT_WINDOW_300, HIT_WINDOW_100])⟩

/-! ## Claim C3 (amended) — single resolution per press -/

/-- C3: a Standard or Lane press either leaves the chart unchanged or flips
exactly one previously-unresolved object to hit (a single `set`, so every
other object — flags included — is untouched). A Drum press flips at most one
object's hit flag, but may mark several objects missed; every object whose
missed flag is set by the press was already missed or is a stale unresolved
Tap/Hold (`now > time + 150`). -/
theorem C3_single_resolution_amended :
    (∀ (env : StdEnv) (st : InputState) (cx cy : ℚ),
        st.cursor ≤ st.objs.length →
        (handleStandardInput env st cx cy).objs = st.objs
        ∨ ∃ (j : ℕ) (hj : j < st.objs.length),
            (st.objs.get ⟨j, hj⟩).hit = false
            ∧ (handleStandardInput env st cx cy).objs
                = st.objs.set j { st.objs.get ⟨j, hj⟩ with hit := true })
    ∧ (∀ (now : ℚ) (st : InputState) (c : ℤ),
        st.cursor ≤ st.objs.length →
        (handleManiaInput now st c true).objs = st.objs
        ∨ ∃ (j : ℕ) (hj : j < st.objs.length),
            (st.objs.get ⟨j, hj⟩).hit = false
            ∧ (handleManiaInput now st c true).objs
                = st.objs.set j { st.objs.get ⟨j, hj⟩ with hit := true })
    ∧ (∀ (now : ℚ) (st : InputState) (key : TaikoKey),
        st.cursor ≤ st.objs.length →
        ((∀ (k : ℕ) (d : HitObject),
            ((handleTaikoInput now st key).objs.getD k d).hit
              = (st.objs.getD k d).hit)
          ∨ ∃ (j : ℕ), ∀ (k : ℕ) (d : HitObject), k ≠ j →
              ((handleTaikoInput now st key).objs.getD k d).hit
                = (st.objs.getD k d).hit)
        ∧ ∀ (k : ℕ) (d : HitObject),
            ((handleTaikoInput now st key).objs.getD k d).missed = true →
            (st.objs.getD k d).missed = true
            ∨ ((st.objs.getD k d).hit = false
                ∧ ((st.objs.getD k d).type = HitType.circle
                    ∨ (st.objs.getD k d).type = HitType.slider)
                ∧ now > (st.objs.getD k d).time + HIT_WINDOW_50)) := by
  refine ⟨?_, ?_, ?_⟩
  · intro env st cx cy hc
    rcases handleStandardInput_char env st cx cy hc with
      ⟨ho, _⟩ | ⟨j, hj, _, hhit, _, _, ho, _⟩
    · left; exact ho
    · right; exact ⟨j, hj, hhit, ho⟩
  · intro now st c hc
    rcases handleManiaInput_char now st c hc with
      ⟨ho, _⟩ | ⟨j, hj, _, hcand, _, ho, _⟩
    · left; exact ho
    · right; exact ⟨j, hj, hcand.1, ho⟩
  · intro now st key hc
    constructor
    · rcases handleTaikoInput_char now st key hc with
        h | ⟨j, _, _, _, _, _, _, hothers⟩
      · left; exact h
      · right; exact ⟨j, hothers⟩
    · intro k d hmiss
      by_cases hk : k < st.cursor
      · have hsplice : (handleTaikoInput now st key).objs.getD k d
            = st.objs.getD k d :=
          getD_take_append_left st.objs _ st.cursor k d hc hk
        rw [hsplice] at hmiss
        exact Or.inl hmiss
      · have hsplice : (handleTaikoInput now st key).objs.getD k d
            = (taikoInputAux now key st.score []
                (st.objs.drop st.cursor)).objs.getD (k - st.cursor) d :=
          getD_take_append_right st.objs _ st.cursor k d hc (by omega)
        rw [hsplice] at hmiss
        rcases taikoInputAux_missflip now key (st.objs.drop st.cursor) st.score []
            (k - st.cursor) d hmiss with h1 | ⟨h2a, h2b, h2c⟩
        · rw [getD_drop, show st.cursor + (k - st.cursor) = k from by omega] at h1
          exact Or.inl h1
        · rw [getD_drop, show st.cursor + (k - st.cursor) = k from by omega]
            at h2a h2b h2c
          exact Or.inr ⟨h2a, h2b, h2c⟩

/-- C3 witness: the Standard conjunct at a concrete on-time press — the press
either left the one-object chart unchanged or flipped exactly that object. -/
theorem C3_witness :
    (handleStandardInput (sampleStdEnv 1000)
        ⟨[sampleTap 1000], 0, initialScore⟩ 100 100).objs
      = ([sampleTap 1000] : List HitObject)
    ∨ ∃ (j : ℕ) (hj : j < ([sampleTap 1000] : List HitObject).length),
        (([sampleTap 1000] : List HitObject).get ⟨j, hj⟩).hit = false
        ∧ (handleStandardInput (sampleStdEnv 1000)
              ⟨[sampleTap 1000], 0, initialScore⟩ 100 100).objs
            = ([sampleTap 1000] : List HitObject).set j
                { ([sampleTap 1000] : List HitObject).get ⟨j, hj⟩ with hit := true } :=
  C3_single_resolution_amended.1 (sampleStdEnv 1000)
    ⟨[sampleTap 1000], 0, initialScore⟩ 100 100 (Nat.zero_le _)

/-! ## Claim C7 (amended) — Drum spinner presses -/

/-- C7: a Drum press while `now` lies inside the frontmost unresolved Spin
object's `[time, endTime]` (all earlier objects in the scan window already
resolved) awards a 100 judgement and ends the scan, but leaves every object —
the Spin object included — completely unchanged: it is never marked hit. -/
theorem C7_drum_spinner_amended (now : ℚ) (st : InputState) (key : TaikoKey)
    (j : ℕ) (hj : j < st.objs.length)
    (hc : st.cursor ≤ st.objs.length) (hcj : st.cursor ≤ j)
    (hprev : ∀ (k : ℕ) (hk : k < st.objs.length), st.cursor ≤ k → k < j →
        (st.objs.get ⟨k, hk⟩).hit = true ∨ (st.objs.get ⟨k, hk⟩).missed = true)
    (htype : (st.objs.get ⟨j, hj⟩).type = HitType.spinner)
    (hhit : (st.objs.get ⟨j, hj⟩).hit = false)
    (hmiss : (st.objs.get ⟨j, hj⟩).missed = false)
    (ht1 : (st.objs.get ⟨j, hj⟩).time ≤ now)
    (ht2 : now ≤ (st.objs.get ⟨j, hj⟩).endTime) :
    (handleTaikoInput now st key).objs = st.objs
    ∧ (handleTaikoInput now st key).score = updateScore st.score 100 HitKind.h100
    ∧ (handleTaikoInput now st key).events = [(100, HitKind.h100)] := by
  obtain ⟨hm, hget⟩ := get_drop_index st.objs st.cursor j hcj hj
  have haux : taikoInputAux now key st.score [] (st.objs.drop st.cursor)
      = ⟨st.objs.drop st.cursor, updateScore st.score 100 HitKind.h100,
         [] ++ [(100, HitKind.h100)]⟩ := by
    refine taikoInputAux_spinner_scan now key (st.objs.drop st.cursor) st.score []
      (j - st.cursor) hm ?_ ?_ ?_ ?_ ?_ ?_
    · intro k hk hkj
      obtain ⟨hk', hgetk⟩ := get_drop_index' st.objs st.cursor k hk
      rw [hgetk]
      exact hprev (st.cursor + k) hk' (by omega) (by omega)
    · rw [hget]; exact htype
    · rw [hget]; exact hhit
    · rw [hget]; exact hmiss
    · rw [hget]; exact ht1
    · rw [hget]; exact ht2
  have hobjs : (handleTaikoInput now st key).objs
      = st.objs.take st.cursor
        ++ (taikoInputAux now key st.score [] (st.objs.drop st.cursor)).objs := rfl
  have hscore : (handleTaikoInput now st key).score
      = (taikoInputAux now key st.score [] (st.objs.drop st.cursor)).score := rfl
  have hev : (handleTaikoInput now st key).events
      = (taikoInputAux now key st.score [] (st.objs.drop st.cursor)).events := rfl
  rw [haux] at hobjs hscore hev
  exact ⟨by rw [hobjs]; exact List.take_append_drop _ _, hscore, by rw [hev]; rfl⟩

/-- C7 witness: a Drum press at `now = 500` inside a `[0, 1000]` Spin object —
the chart is returned unchanged, the score gains a 100 judgement, and exactly
one `(100, h100)` event is emitted. -/
theorem C7_witness :
    (handleTaikoInput 500 ⟨[sampleSpinner 0 1000], 0, initialScore⟩
        TaikoKey.inner).objs = [sampleSpinner 0 1000]
    ∧ (handleTaikoInput 500 ⟨[sampleSpinner 0 1000], 0, initialScore⟩
        TaikoKey.inner).score = updateScore initialScore 100 HitKind.h100
    ∧ (handleTaikoInput 500 ⟨[sampleSpinner 0 1000], 0, initialScore⟩
        TaikoKey.inner).events = [(100, HitKind.h100)] :=
  C7_drum_spinner_amended 500 ⟨[sampleSpinner 0 1000], 0, initialScore⟩
    TaikoKey.inner 0 (by decide) (Nat.zero_le _) (Nat.zero_le _)
    (fun k hk _ hk0 => absurd hk0 (Nat.not_lt_zero k))
    rfl rfl rfl (by decide) (by decide)

/-! ## Claim C8 (amended) — Lane (Mania) resolution -/

/-- C8: with 4 lanes an object's lane is `⌊x·4/512⌋` (`x = 400` maps to lane
3); a held lane-`c` press either changes nothing, or resolves exactly the
first object at or past the cursor that is an unresolved in-window lane-`c`
candidate — first in chart order, not necessarily temporally nearest — and an
object in any other lane is never changed by the press. -/
theorem C8_lane_resolution_amended :
    maniaColumn 400 = 3
    ∧ (∀ (now : ℚ) (st : InputState) (c : ℤ),
        st.cursor ≤ st.objs.length →
        ((handleManiaInput now st c true).objs = st.objs
          ∧ (handleManiaInput now st c true).events = [])
        ∨ ∃ (j : ℕ) (hj : j < st.objs.length),
            st.cursor ≤ j
            ∧ maniaCandidate now c (st.objs.get ⟨j, hj⟩)
            ∧ (∀ (k : ℕ) (hk : k < st.objs.length), st.cursor ≤ k → k < j →
                ¬maniaCandidate now c (st.objs.get ⟨k, hk⟩))
            ∧ (handleManiaInput now st c true).objs
                = st.objs.set j { st.objs.get ⟨j, hj⟩ with hit := true })
    ∧ (∀ (now : ℚ) (st : InputState) (c : ℤ) (k : ℕ) (d : HitObject),
        st.cursor ≤ st.objs.length →
        maniaColumn (st.objs.getD k d).x ≠ c →
        (handleManiaInput now st c true).objs.getD k d = st.objs.getD k d) := by
  refine ⟨by norm_num [maniaColumn], ?_, ?_⟩
  · intro now st c hc
    rcases handleManiaInput_char now st c hc with h | ⟨j, hj, hcj, hcand, hfirst, ho, _⟩
    · left; exact h
    · right; exact ⟨j, hj, hcj, hcand, hfirst, ho⟩
  · intro now st c k d hc hcol
    rcases handleManiaInput_char now st c hc with ⟨ho, _⟩ | ⟨j, hj, _, hcand, _, ho, _⟩
    · rw [ho]
    · by_cases hkj : k = j
      · subst hkj
        rw [getD_eq_get st.objs k d hj] at hcol
        exact absurd hcand.2.2.1 hcol
      · rw [ho, getD_set_ne st.objs _ d fun h => hkj h.symm]

/-- C8 witness: lane 3 for `x = 400`, and the non-interference conjunct
discharged concretely — a lane-5 press leaves the lane-3 object untouched. -/
theorem C8_witness :
    maniaColumn 400 = 3
    ∧ (handleManiaInput 1000 ⟨[sampleManiaTap 1000], 0, initialScore⟩ 5
          true).objs.getD 0 (sampleTap 0)
        = ([sampleManiaTap 1000] : List HitObject).getD 0 (sampleTap 0) :=
  ⟨C8_lane_resolution_amended.1,
   C8_lane_resolution_amended.2.2 1000 ⟨[sampleManiaTap 1000], 0, initialScore⟩ 5 0
     (sampleTap 0) (Nat.zero_le _)
     (by norm_num [List.getD, sampleManiaTap, sampleTap, maniaColumn])⟩

end OsuWeb
